import Mathlib

/-
Verification of the connection-discovery and scoring subsystem of the Wing
browser extension (src/lib/connections.js), against its natural-language
specification.

Shallow embedding conventions:
* Scores are exact rationals (JS numbers are binary floats; all constants
  here, 0.2 / 0.15 / 0.65 / 0.3 / 0.6 / 0.4 / 0.7 / 0.8 / 0.5, and all
  inputs used in concrete theorems are exactly representable, so the
  arithmetic agrees).
* The external text-generation capability (makeApiRequest in
  src/lib/api.js) is abstracted as an oracle value of type `Option String`:
  `none` models a failed call (network/provider error, i.e. the promise
  rejects), `some t` models a reply whose `.text` field is `t`.  The prompt
  that the source builds from titles and summaries only feeds that external
  call, so it does not appear in the model.
* `generateId` in the source returns `Date.now().toString(36)` plus a
  random suffix, i.e. a fresh opaque identifier.  It is modelled
  deterministically by a counter `nextId` carried in the store state;
  connection ids are naturals.
* The persistence collaborator is modelled in two ways: a total `Store`
  with the Record Store operations of spec section 6 (src/lib/db.js does
  not define the connection operations, see `dbJs` below), and fallible
  variants used for the error-handling claims.
-/

namespace WingApp

/-! ## Data model -/

/-- An Item ("wing"): the fields of a saved page record that the connection
subsystem reads.  `summary = none` models an absent summary; JS truthiness
of `wing.summary` additionally treats the empty string as absent, see
`hasSummaryJs`. -/
structure Wing where
  id : String
  url : String
  title : String
  summary : Option String
  collectionIds : List String
deriving Repr, DecidableEq

/-- Connection kinds, from CONNECTION_TYPES in src/lib/connections.js:
semantic (AI-detected), collection (same collection, the spec's "taxonomy"
kind), manual (user-created). -/
inductive ConnType where
  | semantic
  | collection
  | manual
deriving Repr, DecidableEq

/-- An Edge ("connection") between two wings, as built by
src/lib/connections.js: a unique id, the two endpoints, a score in [0,1]
and a kind. -/
structure Connection where
  id : Nat
  wingId1 : String
  wingId2 : String
  score : ℚ
  type : ConnType
deriving Repr, DecidableEq

/-- Order-independent test that connection `c` joins wings `a` and `b`. -/
def Connection.touches (c : Connection) (a b : String) : Bool :=
  (c.wingId1 == a && c.wingId2 == b) || (c.wingId1 == b && c.wingId2 == a)

/-- Modelled from the spec: the Record Store state.  src/lib/db.js (the
repository's store module) defines no connection operations and no
`connections` object store, so the store consumed by the Connection
Manager is modelled from spec section 6: it holds the Item records and the
Edge records.  `nextId` is the fresh-id supply modelling `generateId`. -/
structure Store where
  wings : List Wing
  connections : List Connection
  nextId : Nat
deriving Repr, DecidableEq

/-- Modelled from the spec: `getAllItems() -> Item[]`. -/
def getAllWings (s : Store) : List Wing :=
  s.wings

/-- Modelled from the spec: `getItem(id) -> Item | undefined`. -/
def getWing (s : Store) (id : String) : Option Wing :=
  s.wings.find? (fun w => w.id == id)

/-- Modelled from the spec: `getEdgeBetween(id1, id2) -> Edge | undefined`,
an order-independent lookup. -/
def getConnectionBetween (s : Store) (a b : String) : Option Connection :=
  s.connections.find? (fun c => c.touches a b)

/-- Modelled from the spec: `getEdgesForItem(id) -> Edge[]`. -/
def getConnectionsForWing (s : Store) (id : String) : List Connection :=
  s.connections.filter (fun c => c.wingId1 == id || c.wingId2 == id)

/-- Modelled from the spec: `getAllEdges() -> Edge[]`. -/
def getAllConnections (s : Store) : List Connection :=
  s.connections

/-- Modelled from the spec: `createEdge(edge) -> Edge` appends the new
record. -/
def createConnection (s : Store) (c : Connection) : Store :=
  { s with connections := s.connections ++ [c] }

/-- Modelled from the spec: `updateEdge(id, patch) -> Edge`; the only patch
the core issues is `{ type, score }` (manual promotion).  Returns the
updated record. -/
def updateConnection (s : Store) (id : Nat) (score : ℚ) (ty : ConnType) :
    Store × Option Connection :=
  let upd := fun c => if c.id == id then { c with score := score, type := ty } else c
  ({ s with connections := s.connections.map upd },
   (s.connections.find? (fun c => c.id == id)).map
     (fun c => { c with score := score, type := ty }))

/-- Modelled from the spec: `deleteEdge(id) -> void`. -/
def deleteConnection (s : Store) (id : Nat) : Store :=
  { s with connections := s.connections.filter (fun c => !(c.id == id)) }

/-- Modelled from the spec: `deleteEdgesForItem(id) -> void`. -/
def deleteConnectionsForWing (s : Store) (id : String) : Store :=
  { s with connections :=
      s.connections.filter (fun c => !(c.wingId1 == id || c.wingId2 == id)) }

/-- Upsert of a single edge by id: replace the record with the same id, or
append. -/
def upsertConnection (s : Store) (c : Connection) : Store :=
  if s.connections.any (fun c0 => c0.id == c.id) then
    { s with connections :=
        s.connections.map (fun c0 => if c0.id == c.id then c else c0) }
  else
    { s with connections := s.connections ++ [c] }

/-- Modelled from the spec: `batchUpsertEdges(edge[]) -> void`. -/
def batchUpsertConnections (s : Store) (cs : List Connection) : Store :=
  cs.foldl upsertConnection s

/-- The fresh-id supply modelling `generateId` in src/lib/connections.js
(timestamp + random suffix, i.e. an opaque fresh id). -/
def generateId (s : Store) : Nat × Store :=
  (s.nextId, { s with nextId := s.nextId + 1 })

/-! ## Text primitives

The JS platform functions used by the source (`parseFloat`, `parseInt`,
`String.prototype.trim/split/toLowerCase`, `new URL(...).hostname`) are
modelled over character lists.  The scan phases are fully discrete; the
numeric value of a parsed float is assembled separately so that concrete
runs evaluate with `decide` on the discrete part and `norm_num` on the
rational part. -/

/-- Decimal digit test. -/
def isDigitCh (c : Char) : Bool :=
  '0' ≤ c && c ≤ '9'

/-- Numeric value of a digit list (most significant first). -/
def digitsVal (cs : List Char) : Nat :=
  cs.foldl (fun acc c => acc * 10 + (c.toNat - '0'.toNat)) 0

/-- JS whitespace test (the characters relevant to `trim`). -/
def isSpaceCh (c : Char) : Bool :=
  c == ' ' || c == '\t' || c == '\n' || c == '\r'

/-- Drop leading whitespace. -/
def dropLeadingSpace : List Char → List Char
  | [] => []
  | c :: rest => if isSpaceCh c then dropLeadingSpace rest else c :: rest

/-- `String.prototype.trim`. -/
def trimChars (cs : List Char) : List Char :=
  (dropLeadingSpace (dropLeadingSpace cs.reverse).reverse)

/-- `String.prototype.trim` on strings. -/
def trimS (s : String) : String :=
  String.mk (trimChars s.data)

/-- Split a character list at every occurrence of `sep`
(`String.prototype.split` with a one-character separator). -/
def splitCh (sep : Char) : List Char → List (List Char)
  | [] => [[]]
  | c :: rest =>
    let r := splitCh sep rest
    if c == sep then [] :: r
    else match r with
      | [] => [[c]]
      | p :: ps => (c :: p) :: ps

/-- `String.prototype.split` with a one-character separator. -/
def splitS (sep : Char) (s : String) : List String :=
  (splitCh sep s.data).map String.mk

/-- ASCII `String.prototype.toLowerCase`. -/
def lowerS (s : String) : String :=
  String.mk (s.data.map (fun c => if 'A' ≤ c && c ≤ 'Z' then Char.ofNat (c.toNat + 32) else c))

/-- Discrete scan phase of the JS `parseFloat` builtin: optional sign, then
integer digits, optional fraction digits, optional exponent, as the longest
valid prefix.  Returns `(negative, integer digits value, fraction digits
value, number of fraction digits, exponent)`; `none` models NaN (no number
prefix).  Nonfinite literals such as `Infinity` are modelled as
unparseable. -/
def scanFloat (cs0 : List Char) : Option (Bool × Nat × Nat × Nat × Int) :=
  let (neg, cs1) :=
    match cs0 with
    | '-' :: t => (true, t)
    | '+' :: t => (false, t)
    | _ => (false, cs0)
  let ipart := cs1.takeWhile isDigitCh
  let cs2 := cs1.drop ipart.length
  let (fpart, cs3) :=
    match cs2 with
    | '.' :: t => (t.takeWhile isDigitCh, t.drop (t.takeWhile isDigitCh).length)
    | _ => ([], cs2)
  if ipart.isEmpty && fpart.isEmpty then none
  else
    let e : Int :=
      match cs3 with
      | 'e' :: '-' :: t => if (t.takeWhile isDigitCh).isEmpty then 0 else -(digitsVal (t.takeWhile isDigitCh) : Int)
      | 'E' :: '-' :: t => if (t.takeWhile isDigitCh).isEmpty then 0 else -(digitsVal (t.takeWhile isDigitCh) : Int)
      | 'e' :: '+' :: t => (digitsVal (t.takeWhile isDigitCh) : Int)
      | 'E' :: '+' :: t => (digitsVal (t.takeWhile isDigitCh) : Int)
      | 'e' :: t => (digitsVal (t.takeWhile isDigitCh) : Int)
      | 'E' :: t => (digitsVal (t.takeWhile isDigitCh) : Int)
      | _ => 0
    some (neg, digitsVal ipart, digitsVal fpart, fpart.length, e)

/-- Rational value of a scanned float. -/
def floatVal : Bool × Nat × Nat × Nat × Int → ℚ
  | (neg, ip, fp, fl, e) =>
    let mag : ℚ := (ip : ℚ) + (fp : ℚ) / ((10 : ℚ) ^ fl)
    let scaled : ℚ := if 0 ≤ e then mag * (10 : ℚ) ^ e.toNat else mag / (10 : ℚ) ^ (-e).toNat
    if neg then -scaled else scaled

/-- The JS `parseFloat` builtin; `none` models NaN. -/
def parseFloat (s : String) : Option ℚ :=
  (scanFloat s.data).map floatVal

/-- The JS `parseInt` builtin with no radix argument on decimal input:
optional sign then decimal digits, longest valid prefix; `none` models
NaN. -/
def parseIntJs (s : String) : Option Int :=
  let (neg, cs1) :=
    match s.data with
    | '-' :: t => (true, t)
    | '+' :: t => (false, t)
    | _ => (false, s.data)
  let ipart := cs1.takeWhile isDigitCh
  if ipart.isEmpty then none
  else some (if neg then -(digitsVal ipart : Int) else (digitsVal ipart : Int))

/-- Hostname extraction of the platform `new URL(...)` constructor as used
by `calculateDomainSimilarity`: the URL must contain `://` after a
nonempty scheme; the hostname is what follows, up to the first `/`, `?`,
`#` or `:`.  Parse failure (the constructor throwing) is `none`. -/
def parseHostname (url : String) : Option String :=
  match splitS ':' url with
  | scheme :: rest0 :: _rest =>
    match rest0.data with
    | '/' :: '/' :: hostStart =>
      if scheme.isEmpty then none
      else
        let host := hostStart.takeWhile (fun c => !(c == '/' || c == '?' || c == '#'))
        if host.isEmpty then none
        else some (String.mk host)
    | _ => none
  | _ => none

/-! ## Relevance Scorer (src/lib/connections.js) -/

/-- SCORE_THRESHOLD in src/lib/connections.js: minimum combined score to
create a connection. -/
def SCORE_THRESHOLD : ℚ := 0.3

/-- HIGH_SCORE_THRESHOLD in src/lib/connections.js. -/
def HIGH_SCORE_THRESHOLD : ℚ := 0.7

/-- JS truthiness of `wing.summary`: present and nonempty. -/
def hasSummaryJs (w : Wing) : Bool :=
  match w.summary with
  | none => false
  | some s => !(s == "")

/-- calculateCollectionProximity: shared-collection proportion,
`|shared| / max(|ids1|, |ids2|)`, 0 when either list is empty or the
intersection is empty. -/
def calculateCollectionProximity (wing1 wing2 : Wing) : ℚ :=
  let collections1 := wing1.collectionIds
  let collections2 := wing2.collectionIds
  if collections1.isEmpty || collections2.isEmpty then 0
  else
    let shared := collections1.filter (fun c => collections2.contains c)
    if shared.isEmpty then 0
    else (shared.length : ℚ) / (max collections1.length collections2.length : ℚ)

/-- getRootDomain: last two dot-separated labels of a hostname. -/
def getRootDomain (hostname : String) : String :=
  let parts := splitS '.' hostname
  if parts.length ≤ 2 then hostname
  else String.intercalate "." (parts.drop (parts.length - 2))

/-- calculateDomainSimilarity: 0.8 for identical hostnames, 0.5 for a
shared root domain, 0 otherwise or on URL parse failure. -/
def calculateDomainSimilarity (wing1 wing2 : Wing) : ℚ :=
  match parseHostname wing1.url, parseHostname wing2.url with
  | some h1, some h2 =>
    if h1 == h2 then 0.8
    else if getRootDomain h1 == getRootDomain h2 then 0.5
    else 0
  | _, _ => 0

/-- calculateSemanticSimilarity: the external call's reply text is trimmed
and parsed as a float; NaN or a value outside [0,1] contributes 0; a failed
call (`api = none`, the promise rejecting) is caught and contributes 0.
The prompt built from the two wings only feeds the external call and is
absorbed into the oracle. -/
def calculateSemanticSimilarity (api : Option String) : ℚ :=
  match api with
  | none => 0
  | some text =>
    match parseFloat (trimS text) with
    | none => 0
    | some score => if score < 0 || 1 < score then 0 else score

/-- The JS weight-doubling step of calculateConnectionScore in the
no-summaries branch: `weights[0] = weights[0] ? weights[0] * 2 : 0` and
likewise for index 1.  Assigning index 1 of a singleton array extends it,
so the result always has length at least 2. -/
def jsDoubleFirstTwo : List ℚ → List ℚ
  | [] => [0, 0]
  | [a] => [if a = 0 then 0 else 2 * a, 0]
  | a :: b :: rest =>
    (if a = 0 then 0 else 2 * a) :: (if b = 0 then 0 else 2 * b) :: rest

/-- calculateConnectionScore: pushes the collection signal (weight 0.2)
and the domain signal (weight 0.15) when positive; when both wings have a
(truthy) summary also pushes the semantic signal (weight 0.65), otherwise
doubles the pushed weights; returns the weighted average clamped to 1, or
0 when no score was pushed.  `api` is the oracle outcome of the one
external call this pair would make. -/
def calculateConnectionScore (api : Option String) (wing1 wing2 : Wing) : ℚ :=
  let collectionScore := calculateCollectionProximity wing1 wing2
  let domainScore := calculateDomainSimilarity wing1 wing2
  let scores0 : List ℚ :=
    (if 0 < collectionScore then [collectionScore] else []) ++
    (if 0 < domainScore then [domainScore] else [])
  let weights0 : List ℚ :=
    (if 0 < collectionScore then [(0.2 : ℚ)] else []) ++
    (if 0 < domainScore then [(0.15 : ℚ)] else [])
  let sw : List ℚ × List ℚ :=
    if hasSummaryJs wing1 && hasSummaryJs wing2 then
      (scores0 ++ [calculateSemanticSimilarity api], weights0 ++ [(0.65 : ℚ)])
    else
      (scores0, jsDoubleFirstTwo weights0)
  let scores := sw.1
  let weights := sw.2
  if scores.isEmpty then 0
  else
    let totalWeight := weights.foldl (· + ·) 0
    let weightedSum := (scores.zipWith (fun sc w => sc * w) weights).foldl (· + ·) 0
    min 1 (weightedSum / totalWeight)

/-! ## Connection Manager (src/lib/connections.js), total-store semantics

The per-pair oracle `Wing → Wing → Option String` gives the outcome of the
external call `calculateSemanticSimilarity` would make for that pair;
`batchSemanticAnalysis` takes the single batched reply directly. -/

/-- The per-wing analysis loop of analyzeConnectionsForWing: for each other
wing, skip when an edge already exists, otherwise score the pair and, at or
above SCORE_THRESHOLD, create and persist a semantic edge. -/
def analyzeLoop (oracle : Wing → Wing → Option String) (newWing : Wing) :
    List Wing → Store → List Connection → Store × List Connection
  | [], s, conns => (s, conns)
  | otherWing :: rest, s, conns =>
    match getConnectionBetween s newWing.id otherWing.id with
    | some _ => analyzeLoop oracle newWing rest s conns
    | none =>
      let score := calculateConnectionScore (oracle newWing otherWing) newWing otherWing
      if SCORE_THRESHOLD ≤ score then
        let (cid, s1) := generateId s
        let connection : Connection :=
          { id := cid, wingId1 := newWing.id, wingId2 := otherWing.id,
            score := score, type := ConnType.semantic }
        analyzeLoop oracle newWing rest (createConnection s1 connection)
          (conns ++ [connection])
      else
        analyzeLoop oracle newWing rest s conns

/-- analyzeConnectionsForWing: load all other wings and run the analysis
loop; empty corpus returns the empty list.  (The source's try/catch is
modelled in `analyzeConnectionsForWingF`, where the store can fail; with
the total store nothing throws.) -/
def analyzeConnectionsForWing (oracle : Wing → Wing → Option String)
    (newWing : Wing) (s : Store) : Store × List Connection :=
  let allWings := getAllWings s
  let otherWings := allWings.filter (fun w => !(w.id == newWing.id))
  if otherWings.isEmpty then (s, [])
  else analyzeLoop oracle newWing otherWings s []

/-- Outcome of one iteration of the reply-parsing loop of
batchSemanticAnalysis: `break` on a `none` line, `continue` on a malformed
or rejected line, or accept a pair with its parsed score. -/
inductive LineAction where
  | stop
  | skip
  | accept (w1 w2 : Wing) (score : ℚ)

/-- One iteration of the reply-parsing loop: a literal (lowercased) `none`
line stops parsing; a line that does not split into three parts, has NaN
indices or score, out-of-range indices, or a score below SCORE_THRESHOLD
is skipped; otherwise the indexed pair is accepted with the parsed
score. -/
def parseLine (wings : List Wing) (line : String) : LineAction :=
  if lowerS line == "none" then .stop
  else
    match (splitS ',' line).map trimS with
    | [p0, p1, p2] =>
      match parseIntJs p0, parseIntJs p1, parseFloat p2 with
      | some idx1, some idx2, some score =>
        if idx1 < 0 || idx2 < 0 || (wings.length : Int) ≤ idx1 ||
            (wings.length : Int) ≤ idx2 || score < SCORE_THRESHOLD then
          .skip
        else
          match wings.get? idx1.toNat, wings.get? idx2.toNat with
          | some w1, some w2 => .accept w1 w2 score
          | _, _ => .skip
      | _, _, _ => .skip
    | _ => .skip

/-- The reply-parsing loop of batchSemanticAnalysis: process the reply
line by line, creating a semantic connection with the score clamped to 1
for every accepted pair. -/
def batchParseLoop (wings : List Wing) :
    List String → Store → List Connection → Store × List Connection
  | [], s, conns => (s, conns)
  | line :: rest, s, conns =>
    match parseLine wings line with
    | .stop => (s, conns)
    | .skip => batchParseLoop wings rest s conns
    | .accept w1 w2 score =>
      let (cid, s1) := generateId s
      batchParseLoop wings rest s1
        (conns ++ [{ id := cid, wingId1 := w1.id, wingId2 := w2.id,
                     score := min 1 score, type := ConnType.semantic }])

/-- batchSemanticAnalysis: one batched external call (its reply is the
`api` oracle; `none` is a failed call, caught to return the empty list),
then parse the reply line by line.  No store write happens here; only the
id counter advances. -/
def batchSemanticAnalysis (api : Option String) (wings : List Wing)
    (s : Store) : Store × List Connection :=
  if wings.length < 2 then (s, [])
  else
    match api with
    | none => (s, [])
    | some text => batchParseLoop wings (splitS '\n' (trimS text)) s []

/-- The ordered i < j pairs of a list, in the iteration order of the nested
loops of batchAnalyzeConnections. -/
def allPairs : List Wing → List (Wing × Wing)
  | [] => []
  | w :: rest => rest.map (fun w2 => (w, w2)) ++ allPairs rest

/-- The non-semantic pass of batchAnalyzeConnections: for each i < j pair,
skip when an edge exists in the store or the accumulated batch results
already cover the pair; otherwise score `collection * 0.6 + domain * 0.4`
and, at or above SCORE_THRESHOLD, add a collection-kind connection. -/
def batchLoop : List (Wing × Wing) → Store → List Connection →
    Store × List Connection
  | [], s, conns => (s, conns)
  | (wing1, wing2) :: rest, s, conns =>
    match getConnectionBetween s wing1.id wing2.id with
    | some _ => batchLoop rest s conns
    | none =>
      match conns.find? (fun c =>
          (c.wingId1 == wing1.id && c.wingId2 == wing2.id) ||
          (c.wingId1 == wing2.id && c.wingId2 == wing1.id)) with
      | some _ => batchLoop rest s conns
      | none =>
        let collectionScore := calculateCollectionProximity wing1 wing2
        let domainScore := calculateDomainSimilarity wing1 wing2
        let combinedScore := collectionScore * 0.6 + domainScore * 0.4
        if SCORE_THRESHOLD ≤ combinedScore then
          let (cid, s1) := generateId s
          batchLoop rest s1
            (conns ++ [{ id := cid, wingId1 := wing1.id, wingId2 := wing2.id,
                         score := combinedScore, type := ConnType.collection }])
        else
          batchLoop rest s conns

/-- The batched semantic step of batchAnalyzeConnections: when at least
two wings have (truthy) summaries, run batchSemanticAnalysis over them;
otherwise contribute nothing. -/
def batchStage1 (api : Option String) (wings : List Wing) (s : Store) :
    Store × List Connection :=
  if 2 ≤ (wings.filter hasSummaryJs).length then
    batchSemanticAnalysis api (wings.filter hasSummaryJs) s
  else (s, [])

/-- batchAnalyzeConnections: fewer than two wings yield nothing; otherwise
run the batched semantic step over the wings with (truthy) summaries, then
the non-semantic pass over all i < j pairs, and persist all accumulated
connections in one batch upsert. -/
def batchAnalyzeConnections (api : Option String) (wings : List Wing)
    (s : Store) : Store × List Connection :=
  if wings.length < 2 then (s, [])
  else
    let r1 := batchStage1 api wings s
    let r2 := batchLoop (allPairs wings) r1.1 r1.2
    if r2.2.isEmpty then (r2.1, r2.2)
    else (batchUpsertConnections r2.1 r2.2, r2.2)

/-- createManualConnection: upgrade an existing edge in place to
`score = 1, kind = manual`, or create a fresh manual edge at score 1. -/
def createManualConnection (s : Store) (wingId1 wingId2 : String) :
    Store × Option Connection :=
  match getConnectionBetween s wingId1 wingId2 with
  | some existing => updateConnection s existing.id 1 ConnType.manual
  | none =>
    let (cid, s1) := generateId s
    let connection : Connection :=
      { id := cid, wingId1 := wingId1, wingId2 := wingId2,
        score := 1, type := ConnType.manual }
    (createConnection s1 connection, some connection)

/-- removeConnection: delete the edge between the pair when present. -/
def removeConnection (s : Store) (wingId1 wingId2 : String) : Store × Bool :=
  match getConnectionBetween s wingId1 wingId2 with
  | some existing => (deleteConnection s existing.id, true)
  | none => (s, false)

/-- One output row of getRelatedWings: the resolved wing spread together
with the connection data attached by the source (`connectionScore`,
`connectionType`, `connectionId`). -/
structure RelatedWing where
  wing : Wing
  connectionScore : ℚ
  connectionType : ConnType
  connectionId : Option Nat
deriving Repr, DecidableEq

/-- The resolution loop of getRelatedWings: resolve each related id to a
wing (skipping ids whose wing no longer exists) and attach the data of the
first connection touching that id, with the source's `|| 0` /
`|| SEMANTIC` defaults. -/
def buildRelated (s : Store) (connections : List Connection) :
    List String → List RelatedWing
  | [] => []
  | id :: rest =>
    match getWing s id with
    | none => buildRelated s connections rest
    | some wing =>
      let conn := connections.find? (fun c => c.wingId1 == id || c.wingId2 == id)
      { wing := wing
        connectionScore := match conn with | some c => c.score | none => 0
        connectionType := match conn with | some c => c.type | none => ConnType.semantic
        connectionId := conn.map (fun c => c.id) } :: buildRelated s connections rest

/-- getRelatedWings: all edges touching the wing, each resolved to the
other endpoint, sorted by connectionScore descending (the JS sort with
comparator `b.connectionScore - a.connectionScore`, modelled as a stable
merge sort). -/
def getRelatedWings (s : Store) (wingId : String) : List RelatedWing :=
  let connections := getConnectionsForWing s wingId
  if connections.isEmpty then []
  else
    let relatedWingIds := connections.map
      (fun conn => if conn.wingId1 == wingId then conn.wingId2 else conn.wingId1)
    let relatedWings := buildRelated s connections relatedWingIds
    relatedWings.mergeSort (fun a b => b.connectionScore ≤ a.connectionScore)

/-- refreshConnections: delete all edges of the wing, then re-run per-wing
analysis (empty result when the wing no longer exists). -/
def refreshConnections (oracle : Wing → Wing → Option String) (s : Store)
    (wingId : String) : Store × List Connection :=
  let s1 := deleteConnectionsForWing s wingId
  match getWing s1 wingId with
  | none => (s1, [])
  | some wing => analyzeConnectionsForWing oracle wing s1

/-- The aggregate statistics record returned by getConnectionStats;
`connectionsByType` models the JS count-by-kind object. -/
structure Stats where
  totalConnections : Nat
  totalWings : Nat
  averageScore : ℚ
  highScoreConnections : Nat
  connectionsByType : ConnType → Nat

/-- getConnectionStats: totals, mean score (0 on an empty edge set), count
of edges at or above HIGH_SCORE_THRESHOLD, and counts by kind. -/
def getConnectionStats (s : Store) : Stats :=
  let connections := getAllConnections s
  let wings := getAllWings s
  { totalConnections := connections.length
    totalWings := wings.length
    averageScore :=
      if 0 < connections.length then
        (connections.map (fun c => c.score)).foldl (· + ·) 0 / (connections.length : ℚ)
      else 0
    highScoreConnections :=
      (connections.filter (fun c => HIGH_SCORE_THRESHOLD ≤ c.score)).length
    connectionsByType := fun ty =>
      (connections.filter (fun c => c.type == ty)).length }

/-! ## The spec's combination rule (section 4.1), for comparison with
`calculateConnectionScore` -/

/-- The combination rule exactly as the claim states it: contributing
signals are taxonomy and locality when positive, and semantic only when it
is applicable (both summaries) and its score is positive — "a signal with
weight 0 or score 0 never enters the denominator"; weights 0.2 / 0.15 /
0.65, taxonomy and locality doubled when semantic is inapplicable; the
weighted average over contributing signals, clamped to 1, and 0 when
nothing contributes. -/
def combinedScoreClaim (api : Option String) (wing1 wing2 : Wing) : ℚ :=
  let t := calculateCollectionProximity wing1 wing2
  let l := calculateDomainSimilarity wing1 wing2
  let app := hasSummaryJs wing1 && hasSummaryJs wing2
  let sem := calculateSemanticSimilarity api
  let contrib : List (ℚ × ℚ) :=
    (if 0 < t then [(t, if app then (0.2 : ℚ) else 0.4)] else []) ++
    (if 0 < l then [(l, if app then (0.15 : ℚ) else 0.3)] else []) ++
    (if app && decide (0 < sem) then [(sem, (0.65 : ℚ))] else [])
  if contrib.isEmpty then 0
  else min 1 ((contrib.map (fun p => p.1 * p.2)).sum / (contrib.map (fun p => p.2)).sum)

/-- The amended combination rule: as `combinedScoreClaim`, except that the
semantic signal enters the weighted average whenever it is applicable (both
wings have truthy summaries), even when its score is 0. -/
def combinedScoreAmended (api : Option String) (wing1 wing2 : Wing) : ℚ :=
  let t := calculateCollectionProximity wing1 wing2
  let l := calculateDomainSimilarity wing1 wing2
  let app := hasSummaryJs wing1 && hasSummaryJs wing2
  let sem := calculateSemanticSimilarity api
  let contrib : List (ℚ × ℚ) :=
    (if 0 < t then [(t, if app then (0.2 : ℚ) else 0.4)] else []) ++
    (if 0 < l then [(l, if app then (0.15 : ℚ) else 0.3)] else []) ++
    (if app then [(sem, (0.65 : ℚ))] else [])
  if contrib.isEmpty then 0
  else min 1 ((contrib.map (fun p => p.1 * p.2)).sum / (contrib.map (fun p => p.2)).sum)

/-! ## The Connection Manager bound to the repository's own store module
src/lib/db.js

src/lib/db.js exports exactly the thirty functions listed in
`dbJsExports` and creates the object stores listed in
`dbJsObjectStores`; none of the connection operations the core consumes
exist, so `db.getConnectionBetween` and friends are `undefined` in the
imported namespace object and calling them throws a TypeError. -/

/-- JS exceptions distinguished by the error-handling claims. -/
inductive JsErr where
  | typeError
  | dbError
deriving Repr, DecidableEq

/-- The exported function names of src/lib/db.js, in source order. -/
def dbJsExports : List String :=
  ["initDB", "createCollection", "getAllCollections", "getCollection",
   "updateCollection", "deleteCollection", "createNest", "getAllNests",
   "getNestsByCollection", "getNestsByParent", "getNest", "updateNest",
   "deleteNest", "createWing", "getAllWings", "getWingsByCollection",
   "getWingsByNest", "getWingByUrl", "getWing", "updateWing", "deleteWing",
   "createHighlight", "getHighlightsByWing", "getHighlight",
   "updateHighlight", "deleteHighlight", "exportAllData", "importData",
   "clearAllData", "searchWings"]

/-- The IndexedDB object stores created by src/lib/db.js (initDB's
onupgradeneeded handler). -/
def dbJsObjectStores : List String :=
  ["wings", "collections", "nests", "highlights"]

/-- The `db.*` operations src/lib/connections.js consumes that
src/lib/db.js does not define. -/
def missingConnectionOps : List String :=
  ["getConnectionBetween", "createConnection", "updateConnection",
   "deleteConnection", "getConnectionsForWing", "getAllConnections",
   "deleteConnectionsForWing", "batchUpsertConnections"]

namespace dbJs

/-- db.js getAllWings: read all wing records. -/
def getAllWings (s : Store) : Except JsErr (List Wing) :=
  .ok s.wings

/-- db.js getWing: read one wing record by id. -/
def getWing (s : Store) (id : String) : Except JsErr (Option Wing) :=
  .ok (s.wings.find? (fun w => w.id == id))

/-- db.getConnectionBetween is undefined in src/lib/db.js: the call throws
a TypeError. -/
def getConnectionBetween (_ : Store) (_ _ : String) :
    Except JsErr (Option Connection) :=
  .error .typeError

/-- db.createConnection is undefined in src/lib/db.js. -/
def createConnection (_ : Store) (_ : Connection) : Except JsErr Store :=
  .error .typeError

/-- db.updateConnection is undefined in src/lib/db.js. -/
def updateConnection (_ : Store) (_ : Nat) (_ : ℚ) (_ : ConnType) :
    Except JsErr (Option Connection) :=
  .error .typeError

/-- db.deleteConnection is undefined in src/lib/db.js. -/
def deleteConnection (_ : Store) (_ : Nat) : Except JsErr Store :=
  .error .typeError

/-- db.getConnectionsForWing is undefined in src/lib/db.js. -/
def getConnectionsForWing (_ : Store) (_ : String) :
    Except JsErr (List Connection) :=
  .error .typeError

/-- db.getAllConnections is undefined in src/lib/db.js. -/
def getAllConnections (_ : Store) : Except JsErr (List Connection) :=
  .error .typeError

/-- db.deleteConnectionsForWing is undefined in src/lib/db.js. -/
def deleteConnectionsForWing (_ : Store) (_ : String) : Except JsErr Store :=
  .error .typeError

/-- db.batchUpsertConnections is undefined in src/lib/db.js. -/
def batchUpsertConnections (_ : Store) (_ : List Connection) :
    Except JsErr Store :=
  .error .typeError

end dbJs

/-! Connection Manager operations bound to src/lib/db.js.  Every db write
throws before reaching the store, so the Store argument is read-only
here. -/

/-- The analysis loop of analyzeConnectionsForWing over the db.js
binding. -/
def analyzeLoopJ (oracle : Wing → Wing → Option String) (newWing : Wing)
    (s : Store) : List Wing → List Connection → Except JsErr (List Connection)
  | [], conns => .ok conns
  | otherWing :: rest, conns =>
    match dbJs.getConnectionBetween s newWing.id otherWing.id with
    | .error e => .error e
    | .ok (some _) => analyzeLoopJ oracle newWing s rest conns
    | .ok none =>
      let score := calculateConnectionScore (oracle newWing otherWing) newWing otherWing
      if SCORE_THRESHOLD ≤ score then
        let connection : Connection :=
          { id := s.nextId, wingId1 := newWing.id, wingId2 := otherWing.id,
            score := score, type := ConnType.semantic }
        match dbJs.createConnection s connection with
        | .error e => .error e
        | .ok _ => analyzeLoopJ oracle newWing s rest (conns ++ [connection])
      else
        analyzeLoopJ oracle newWing s rest conns

/-- analyzeConnectionsForWing over the db.js binding: the whole body is in
a try/catch that returns the empty list on any error. -/
def analyzeConnectionsForWingJ (oracle : Wing → Wing → Option String)
    (newWing : Wing) (s : Store) : Except JsErr (List Connection) :=
  let body : Except JsErr (List Connection) :=
    match dbJs.getAllWings s with
    | .error e => .error e
    | .ok allWings =>
      let otherWings := allWings.filter (fun w => !(w.id == newWing.id))
      if otherWings.isEmpty then .ok []
      else analyzeLoopJ oracle newWing s otherWings []
  match body with
  | .error _ => .ok []
  | .ok conns => .ok conns

/-- The non-semantic pass of batchAnalyzeConnections over the db.js
binding (uncaught db errors propagate). -/
def batchLoopJ (s : Store) : List (Wing × Wing) → List Connection →
    Except JsErr (List Connection)
  | [], conns => .ok conns
  | (wing1, wing2) :: rest, conns => do
    let existing ← dbJs.getConnectionBetween s wing1.id wing2.id
    match existing with
    | some _ => batchLoopJ s rest conns
    | none =>
      match conns.find? (fun c =>
          (c.wingId1 == wing1.id && c.wingId2 == wing2.id) ||
          (c.wingId1 == wing2.id && c.wingId2 == wing1.id)) with
      | some _ => batchLoopJ s rest conns
      | none =>
        let combinedScore := calculateCollectionProximity wing1 wing2 * 0.6 +
          calculateDomainSimilarity wing1 wing2 * 0.4
        if SCORE_THRESHOLD ≤ combinedScore then
          batchLoopJ s rest
            (conns ++ [{ id := s.nextId, wingId1 := wing1.id,
                         wingId2 := wing2.id, score := combinedScore,
                         type := ConnType.collection }])
        else
          batchLoopJ s rest conns

/-- batchAnalyzeConnections over the db.js binding.  Only the batched
semantic step is inside a try/catch (and `batchSemanticAnalysis` touches no
db operation); the non-semantic pass and the final batch upsert are not
caught. -/
def batchAnalyzeConnectionsJ (api : Option String) (wings : List Wing)
    (s : Store) : Except JsErr (List Connection) :=
  if wings.length < 2 then .ok []
  else do
    let wingsWithSummaries := wings.filter hasSummaryJs
    let batchConns :=
      if 2 ≤ wingsWithSummaries.length then
        (batchSemanticAnalysis api wingsWithSummaries s).2
      else []
    let conns ← batchLoopJ s (allPairs wings) batchConns
    if conns.isEmpty then pure conns
    else do
      let _ ← dbJs.batchUpsertConnections s conns
      pure conns

/-- createManualConnection over the db.js binding (no try/catch in the
source). -/
def createManualConnectionJ (s : Store) (wingId1 wingId2 : String) :
    Except JsErr (Option Connection) := do
  let existing ← dbJs.getConnectionBetween s wingId1 wingId2
  match existing with
  | some e => dbJs.updateConnection s e.id 1 ConnType.manual
  | none => do
    let connection : Connection :=
      { id := s.nextId, wingId1 := wingId1, wingId2 := wingId2,
        score := 1, type := ConnType.manual }
    let _ ← dbJs.createConnection s connection
    pure (some connection)

/-- removeConnection over the db.js binding. -/
def removeConnectionJ (s : Store) (wingId1 wingId2 : String) :
    Except JsErr Bool := do
  let existing ← dbJs.getConnectionBetween s wingId1 wingId2
  match existing with
  | some e => do
    let _ ← dbJs.deleteConnection s e.id
    pure true
  | none => pure false

/-- The resolution loop of getRelatedWings over the db.js binding. -/
def buildRelatedJ (s : Store) (connections : List Connection) :
    List String → Except JsErr (List RelatedWing)
  | [] => .ok []
  | id :: rest => do
    let wing? ← dbJs.getWing s id
    match wing? with
    | none => buildRelatedJ s connections rest
    | some wing => do
      let r ← buildRelatedJ s connections rest
      let conn := connections.find? (fun c => c.wingId1 == id || c.wingId2 == id)
      pure ({ wing := wing
              connectionScore := match conn with | some c => c.score | none => 0
              connectionType := match conn with | some c => c.type | none => ConnType.semantic
              connectionId := conn.map (fun c => c.id) } :: r)

/-- getRelatedWings over the db.js binding. -/
def getRelatedWingsJ (s : Store) (wingId : String) :
    Except JsErr (List RelatedWing) := do
  let connections ← dbJs.getConnectionsForWing s wingId
  if connections.isEmpty then pure []
  else do
    let relatedWingIds := connections.map
      (fun conn => if conn.wingId1 == wingId then conn.wingId2 else conn.wingId1)
    let relatedWings ← buildRelatedJ s connections relatedWingIds
    pure (relatedWings.mergeSort (fun a b => b.connectionScore ≤ a.connectionScore))

/-- refreshConnections over the db.js binding (no try/catch in the
source). -/
def refreshConnectionsJ (oracle : Wing → Wing → Option String) (s : Store)
    (wingId : String) : Except JsErr (List Connection) := do
  let s1 ← dbJs.deleteConnectionsForWing s wingId
  let wing? ← dbJs.getWing s1 wingId
  match wing? with
  | none => pure []
  | some wing => analyzeConnectionsForWingJ oracle wing s1

/-- getConnectionStats over the db.js binding. -/
def getConnectionStatsJ (s : Store) : Except JsErr Stats := do
  let connections ← dbJs.getAllConnections s
  let wings ← dbJs.getAllWings s
  pure { totalConnections := connections.length
         totalWings := wings.length
         averageScore :=
           if 0 < connections.length then
             (connections.map (fun c => c.score)).foldl (· + ·) 0 / (connections.length : ℚ)
           else 0
         highScoreConnections :=
           (connections.filter (fun c => HIGH_SCORE_THRESHOLD ≤ c.score)).length
         connectionsByType := fun ty =>
           (connections.filter (fun c => c.type == ty)).length }

/-! ## Per-wing analysis over a store whose operations can fail

`FSt` pairs the store contents with a failure schedule: the `Nat` is the
number of store operations that still succeed before one rejects (an
IndexedDB request failing).  This models a store read/write failure at an
arbitrary point of the analysis. -/

/-- Store state with a failure schedule. -/
def FSt : Type := Store × Nat

/-- Fallible getAllWings. -/
def fGetAllWings (st : FSt) : FSt × Except JsErr (List Wing) :=
  match st.2 with
  | 0 => (st, .error .dbError)
  | n + 1 => ((st.1, n), .ok st.1.wings)

/-- Fallible getConnectionBetween. -/
def fGetConnectionBetween (st : FSt) (a b : String) :
    FSt × Except JsErr (Option Connection) :=
  match st.2 with
  | 0 => (st, .error .dbError)
  | n + 1 => ((st.1, n), .ok (getConnectionBetween st.1 a b))

/-- Fallible createConnection. -/
def fCreateConnection (st : FSt) (c : Connection) : FSt × Except JsErr Unit :=
  match st.2 with
  | 0 => (st, .error .dbError)
  | n + 1 => ((createConnection st.1 c, n), .ok ())

/-- The analysis loop of analyzeConnectionsForWing over the fallible
store; a store error aborts the loop, leaving the writes already made in
place. -/
def analyzeLoopF (oracle : Wing → Wing → Option String) (newWing : Wing) :
    List Wing → FSt → List Connection → FSt × Except JsErr (List Connection)
  | [], st, conns => (st, .ok conns)
  | otherWing :: rest, st, conns =>
    match fGetConnectionBetween st newWing.id otherWing.id with
    | (st1, .error e) => (st1, .error e)
    | (st1, .ok (some _)) => analyzeLoopF oracle newWing rest st1 conns
    | (st1, .ok none) =>
      let score := calculateConnectionScore (oracle newWing otherWing) newWing otherWing
      if SCORE_THRESHOLD ≤ score then
        let (cid, s1) := generateId st1.1
        let connection : Connection :=
          { id := cid, wingId1 := newWing.id, wingId2 := otherWing.id,
            score := score, type := ConnType.semantic }
        match fCreateConnection (s1, st1.2) connection with
        | (st2, .error e) => (st2, .error e)
        | (st2, .ok _) => analyzeLoopF oracle newWing rest st2 (conns ++ [connection])
      else
        analyzeLoopF oracle newWing rest st1 conns

/-- The body of analyzeConnectionsForWing (inside its try) over the
fallible store. -/
def analyzeBodyF (oracle : Wing → Wing → Option String) (newWing : Wing)
    (st : FSt) : FSt × Except JsErr (List Connection) :=
  match fGetAllWings st with
  | (st1, .error e) => (st1, .error e)
  | (st1, .ok allWings) =>
    let otherWings := allWings.filter (fun w => !(w.id == newWing.id))
    if otherWings.isEmpty then (st1, .ok [])
    else analyzeLoopF oracle newWing otherWings st1 []

/-- analyzeConnectionsForWing over the fallible store: the source's
try/catch turns any store error into an empty result, keeping whatever was
already persisted. -/
def analyzeConnectionsForWingF (oracle : Wing → Wing → Option String)
    (newWing : Wing) (st : FSt) : FSt × List Connection :=
  match analyzeBodyF oracle newWing st with
  | (st1, .error _) => (st1, [])
  | (st1, .ok conns) => (st1, conns)

/-! ## Concrete fixtures used by witnesses and counterexamples -/

/-- The connections of `l` joining the unordered pair `{a, b}`. -/
def pairConns (l : List Connection) (a b : String) : List Connection :=
  l.filter (fun c => c.touches a b)

/-- Fixture: a wing with a summary and an unparseable URL. -/
def wA : Wing := ⟨"a", "u", "A", some "sa", []⟩

/-- Fixture: a second wing with a summary. -/
def wB : Wing := ⟨"b", "u2", "B", some "sb", []⟩

/-- Fixture: a wing with a summary and one collection. -/
def wC : Wing := ⟨"c", "u", "C", some "x", ["k"]⟩

/-- Fixture: a second wing with a summary sharing wC's collection. -/
def wD : Wing := ⟨"d", "u2", "D", some "y", ["k"]⟩

/-- Fixture: a wing without summary, in collection k. -/
def wE : Wing := ⟨"e", "u", "E", none, ["k"]⟩

/-- Fixture: a second wing without summary, in collection k. -/
def wF : Wing := ⟨"f", "u2", "F", none, ["k"]⟩

/-- Fixture: a third wing without summary, in collection k. -/
def wG : Wing := ⟨"g", "u3", "G", none, ["k"]⟩

/-- Fixture: the empty store. -/
def emptyStore : Store := ⟨[], [], 0⟩

/-- Fixture: a store holding wA and wB and no connections. -/
def sAB : Store := ⟨[wA, wB], [], 0⟩

/-- Fixture: a pre-existing semantic edge between a and b. -/
def eSem : Connection := ⟨99, "a", "b", 1/2, ConnType.semantic⟩

/-- Fixture: a pre-existing manual edge between a and b. -/
def eMan : Connection := ⟨99, "a", "b", 1, ConnType.manual⟩

/-- Fixture: wA and wB already connected by a semantic edge. -/
def sDup : Store := ⟨[wA, wB], [eSem], 100⟩

/-- Fixture: wA and wB already connected by a manual edge. -/
def sMan : Store := ⟨[wA, wB], [eMan], 100⟩

/-- Fixture: a store holding wF and wG (both share collection k with
wE). -/
def sFG : Store := ⟨[wF, wG], [], 0⟩

/-- Fixture: the oracle whose external calls all fail. -/
def oracleNone : Wing → Wing → Option String := fun _ _ => none

/-- Fixture: the edge per-item analysis creates between wE and wF (both in
collection k, no summaries: combined score 1). -/
def cEF : Connection := ⟨0, "e", "f", 1, ConnType.semantic⟩

/-! ## Helper lemmas -/

theorem parseFloat_eval (s : String) (r : Bool × Nat × Nat × Nat × Int)
    (h : scanFloat s.data = some r) : parseFloat s = some (floatVal r) := by
  unfold parseFloat
  rw [h]
  rfl

theorem getConnectionBetween_none_iff (s : Store) (a b : String) :
    getConnectionBetween s a b = none ↔ pairConns s.connections a b = [] := by
  unfold getConnectionBetween pairConns
  rw [List.find?_eq_none, List.filter_eq_nil_iff]

theorem batchSemanticAnalysis_some (api : String) (wings : List Wing)
    (s : Store) (h : ¬ wings.length < 2) :
    batchSemanticAnalysis (some api) wings s =
      batchParseLoop wings (splitS '\n' (trimS api)) s [] := by
  unfold batchSemanticAnalysis
  simp [h]

theorem parseLine_stop (wings : List Wing) (line : String)
    (hnone : (lowerS line == "none") = true) :
    parseLine wings line = .stop := by
  unfold parseLine
  simp [hnone]

theorem parseLine_accepts (wings : List Wing) (line : String)
    (p0 p1 p2 : String) (i1 i2 : Int) (q : ℚ) (w1 w2 : Wing)
    (hnone : (lowerS line == "none") = false)
    (hparts : (splitS ',' line).map trimS = [p0, p1, p2])
    (h0 : parseIntJs p0 = some i1) (h1 : parseIntJs p1 = some i2)
    (h2 : parseFloat p2 = some q)
    (hi1 : ¬ i1 < 0) (hi2 : ¬ i2 < 0)
    (hl1 : ¬ (wings.length : Int) ≤ i1) (hl2 : ¬ (wings.length : Int) ≤ i2)
    (hq : ¬ q < SCORE_THRESHOLD)
    (hw1 : wings[i1.toNat]? = some w1) (hw2 : wings[i2.toNat]? = some w2) :
    parseLine wings line = .accept w1 w2 q := by
  unfold parseLine
  simp [hnone, hparts, h0, h1, h2, hi1, hi2, hl1, hl2, hq, hw1, hw2]

theorem batchParseLoop_stop (wings : List Wing) (line : String)
    (rest : List String) (s : Store) (acc : List Connection)
    (hstop : parseLine wings line = .stop) :
    batchParseLoop wings (line :: rest) s acc = (s, acc) := by
  conv_lhs => rw [batchParseLoop]
  simp [hstop]

theorem batchParseLoop_accept (wings : List Wing) (line : String)
    (rest : List String) (s : Store) (acc : List Connection)
    (w1 w2 : Wing) (q : ℚ)
    (haccept : parseLine wings line = .accept w1 w2 q) :
    batchParseLoop wings (line :: rest) s acc =
      batchParseLoop wings rest { s with nextId := s.nextId + 1 }
        (acc ++ [{ id := s.nextId, wingId1 := w1.id, wingId2 := w2.id,
                   score := min 1 q, type := ConnType.semantic }]) := by
  conv_lhs => rw [batchParseLoop]
  simp [haccept, generateId]

/-! ## C7: fail-safe semantic similarity -/

/-- C7: the semantic-similarity signal is fail-safe: if the external call
fails, or its reply text does not parse as a float, or the parsed value
lies outside [0,1], the signal contributes exactly 0 (and, being a total
function, the Scorer throws nothing). -/
theorem calculateSemanticSimilarity_failsafe (api : Option String)
    (h : api = none ∨ ∃ t, api = some t ∧
      (parseFloat (trimS t) = none ∨
       ∃ q, parseFloat (trimS t) = some q ∧ (q < 0 ∨ 1 < q))) :
    calculateSemanticSimilarity api = 0 := by
  rcases h with h | ⟨t, ht, h⟩
  · rw [h]; rfl
  · subst ht
    rcases h with h | ⟨q, hq, hout⟩
    · simp [calculateSemanticSimilarity, h]
    · have hb : (decide (q < 0) || decide (1 < q)) = true := by
        rcases hout with h1 | h1 <;> simp [h1]
      simp [calculateSemanticSimilarity, hq, hb]

/-- C7 witness: the spec's own scenario, a reply text `"1.5"`: it parses to
3/2, which is out of range, and the signal contributes 0. -/
theorem calculateSemanticSimilarity_failsafe_witness :
    (parseFloat (trimS "1.5") = some (3/2) ∧ (1:ℚ) < 3/2) ∧
      calculateSemanticSimilarity (some "1.5") = 0 := by
  have hs : trimS "1.5" = "1.5" := by decide
  have hp : parseFloat "1.5" = some (3/2) := by
    rw [parseFloat_eval "1.5" (false, 1, 5, 1, 0) (by decide)]
    norm_num [floatVal]
  refine ⟨⟨by rw [hs, hp], by norm_num⟩, ?_⟩
  exact calculateSemanticSimilarity_failsafe (some "1.5")
    (Or.inr ⟨"1.5", rfl, Or.inr ⟨3/2, by rw [hs, hp], Or.inr (by norm_num)⟩⟩)

/-! ## C9: batch reply parsing accepts scores in [0.3, 0.4), and a "none"
line stops parsing -/

/-- C9: the batch reply parser accepts any well-formed line whose score is
at least SCORE_THRESHOLD (0.3) — the relaxed batch threshold 0.4 exists
only in the prompt text — so the reply `0,1,0.35` (score in [0.3, 0.4))
still creates a semantic edge; and a `none` line stops parsing entirely,
so the reply `none\n0,1,0.9` creates nothing. -/
theorem batchSemanticAnalysis_accepts_general_threshold :
    (((batchSemanticAnalysis (some "0,1,0.35") [wA, wB] sAB).2.map
        (fun c => (c.wingId1, c.wingId2, c.score, c.type)) =
      [("a", "b", (7:ℚ)/20, ConnType.semantic)]) ∧
      SCORE_THRESHOLD ≤ (7:ℚ)/20 ∧ (7:ℚ)/20 < 0.4) ∧
    batchSemanticAnalysis (some "none\n0,1,0.9") [wA, wB] sAB = (sAB, []) := by
  have hfv : floatVal (false, 0, 35, 2, 0) = 7/20 := by norm_num [floatVal]
  have hpf : parseFloat "0.35" = some (7/20) := by
    rw [parseFloat_eval "0.35" (false, 0, 35, 2, 0) (by decide), hfv]
  constructor
  · constructor
    · have ht : trimS "0,1,0.35" = "0,1,0.35" := by decide
      have hl : splitS '\n' "0,1,0.35" = ["0,1,0.35"] := by decide
      rw [batchSemanticAnalysis_some "0,1,0.35" [wA, wB] sAB (by decide), ht, hl]
      rw [batchParseLoop_accept [wA, wB] "0,1,0.35" [] sAB [] wA wB (7/20)
        (parseLine_accepts [wA, wB] "0,1,0.35" "0" "1" "0.35" 0 1 (7/20) wA wB
          (by decide) (by decide) (by decide) (by decide) hpf (by decide)
          (by decide) (by decide) (by decide)
          (by norm_num [SCORE_THRESHOLD]) (by decide) (by decide))]
      simp only [batchParseLoop, List.length_cons]
      norm_num [sAB, wA, wB]
    · norm_num [SCORE_THRESHOLD]
  · have ht : trimS "none\n0,1,0.9" = "none\n0,1,0.9" := by decide
    have hl : splitS '\n' "none\n0,1,0.9" = ["none", "0,1,0.9"] := by decide
    rw [batchSemanticAnalysis_some "none\n0,1,0.9" [wA, wB] sAB (by decide), ht, hl]
    rw [batchParseLoop_stop [wA, wB] "none" ["0,1,0.9"] sAB []
      (parseLine_stop [wA, wB] "none" (by decide))]

/-! ## C2: the Scorer's combination rule -/

/-- C2 counterexample: for wings wC, wD (shared collection, unparseable
URLs, both with summaries) and a reply of "0.0", the code's combined score
is 4/17 (the semantic signal, pushed with score 0 because both wings have
summaries, enters the denominator with weight 0.65), while the claim's
rule — "a signal with weight 0 or score 0 never enters the denominator" —
yields 1. -/
theorem calculateConnectionScore_claim_counterexample :
    calculateConnectionScore (some "0.0") wC wD = 4/17 ∧
    combinedScoreClaim (some "0.0") wC wD = 1 ∧
    ((4:ℚ)/17) ≠ 1 := by
  have hcp : calculateCollectionProximity wC wD = 1 := by
    unfold calculateCollectionProximity
    norm_num [wC, wD]
  have hdom : calculateDomainSimilarity wC wD = 0 := by
    have h : parseHostname "u" = none := by decide
    simp [calculateDomainSimilarity, wC, wD, h]
  have hsem : calculateSemanticSimilarity (some "0.0") = 0 := by
    have hp : parseFloat (trimS "0.0") = some 0 := by
      have ht : trimS "0.0" = "0.0" := by decide
      have hv : floatVal (false, 0, 0, 1, 0) = 0 := by norm_num [floatVal]
      rw [ht, parseFloat_eval "0.0" (false, 0, 0, 1, 0) (by decide), hv]
    simp [calculateSemanticSimilarity, hp]
  have happ : (hasSummaryJs wC && hasSummaryJs wD) = true := by decide
  refine ⟨?_, ?_, by norm_num⟩
  · unfold calculateConnectionScore
    rw [hcp, hdom, hsem]
    norm_num [happ, min_def]
  · unfold combinedScoreClaim
    rw [hcp, hdom, hsem]
    norm_num [happ, min_def]

/-- C2 amended: the combined score equals the weighted average over the
contributing signals, where taxonomy (0.2) and locality (0.15) contribute
exactly when positive, the semantic signal (0.65) contributes whenever it
is applicable (both wings have truthy summaries) even when its score is 0,
taxonomy and locality weights double when semantic is inapplicable, the
average is clamped to 1, and the score is exactly 0 when nothing
contributes. -/
theorem calculateConnectionScore_eq_amended (api : Option String)
    (wing1 wing2 : Wing) :
    calculateConnectionScore api wing1 wing2 =
      combinedScoreAmended api wing1 wing2 := by
  unfold calculateConnectionScore combinedScoreAmended
  set t := calculateCollectionProximity wing1 wing2 with hts
  set l := calculateDomainSimilarity wing1 wing2 with hls
  set sem := calculateSemanticSimilarity api with hsems
  by_cases happ : (hasSummaryJs wing1 && hasSummaryJs wing2) = true <;>
    by_cases ht : 0 < t <;> by_cases hl : 0 < l <;>
      simp [happ, ht, hl, jsDoubleFirstTwo, min_def] <;>
        norm_num <;> ring_nf

/-! ## C3: the repository's own store module lacks every connection
operation -/

/-- C3: src/lib/db.js exports none of the connection operations the core
consumes and creates no `connections` object store; bound to it,
createManualConnection, removeConnection, getRelatedItems,
refreshConnections, getConnectionStats, and batchAnalyzeConnections with
two or more wings all reject with a TypeError for every input, while
analyzeConnectionsForItem catches the error and resolves with the empty
list for every input. -/
theorem dbJs_missing_connection_ops :
    (∀ op ∈ missingConnectionOps, op ∉ dbJsExports) ∧
    "connections" ∉ dbJsObjectStores ∧
    (∀ s a b, createManualConnectionJ s a b = .error .typeError) ∧
    (∀ s a b, removeConnectionJ s a b = .error .typeError) ∧
    (∀ s i, getRelatedWingsJ s i = .error .typeError) ∧
    (∀ oracle s i, refreshConnectionsJ oracle s i = .error .typeError) ∧
    (∀ s, getConnectionStatsJ s = .error .typeError) ∧
    (∀ api wings s, 2 ≤ wings.length →
      batchAnalyzeConnectionsJ api wings s = .error .typeError) ∧
    (∀ oracle w s, analyzeConnectionsForWingJ oracle w s = .ok []) := by
  refine ⟨by decide, by decide, fun s a b => rfl, fun s a b => rfl,
    fun s i => rfl, fun oracle s i => rfl, fun s => rfl, ?_, ?_⟩
  · intro api wings s h
    match wings, h with
    | w1 :: w2 :: rest, _ =>
      unfold batchAnalyzeConnectionsJ
      rw [if_neg (by simp)]
      have hp : allPairs (w1 :: w2 :: rest) =
          (w1, w2) :: (rest.map (fun y => (w1, y)) ++ allPairs (w2 :: rest)) := by
        simp [allPairs]
      rw [hp]
      rfl
  · intro oracle w s
    unfold analyzeConnectionsForWingJ
    simp only [dbJs.getAllWings]
    cases hW : (s.wings.filter (fun w0 => !(w0.id == w.id))) with
    | nil => simp [hW]
    | cons o rest => simp [hW, analyzeLoopJ, dbJs.getConnectionBetween]

/-- C3 witness: the missing export, the TypeError rejections and the
caught empty result at concrete inputs. -/
theorem dbJs_missing_connection_ops_witness :
    "getConnectionBetween" ∉ dbJsExports ∧
    createManualConnectionJ sAB "a" "b" = .error .typeError ∧
    (2 ≤ ([wA, wB] : List Wing).length ∧
      batchAnalyzeConnectionsJ none [wA, wB] sAB = .error .typeError) ∧
    analyzeConnectionsForWingJ oracleNone wA sAB = .ok [] := by
  obtain ⟨h1, _, h3, _, _, _, _, h8, h9⟩ := dbJs_missing_connection_ops
  exact ⟨h1 "getConnectionBetween" (by decide), h3 sAB "a" "b",
    ⟨by decide, h8 none [wA, wB] sAB (by decide)⟩, h9 oracleNone wA sAB⟩

/-! ## Structural lemmas about the analysis loops -/

theorem touches_comm (c : Connection) (a b : String) :
    c.touches a b = c.touches b a := by
  unfold Connection.touches
  rw [Bool.or_comm]

theorem pairConns_comm (l : List Connection) (a b : String) :
    pairConns l a b = pairConns l b a := by
  unfold pairConns
  exact List.filter_congr (fun c _ => touches_comm c a b)

theorem pairConns_append (l1 l2 : List Connection) (a b : String) :
    pairConns (l1 ++ l2) a b = pairConns l1 a b ++ pairConns l2 a b :=
  List.filter_append l1 l2

theorem touches_mk_true_iff (i : Nat) (w1 w2 : String) (sc : ℚ) (ty : ConnType)
    (a b : String) :
    (Connection.mk i w1 w2 sc ty).touches a b = true ↔
      (w1 = a ∧ w2 = b) ∨ (w1 = b ∧ w2 = a) := by
  simp [Connection.touches]

/-- The per-wing analysis loop only appends: the same tail of new semantic
edges, whose first endpoint is the analyzed wing and whose second endpoint
is one of the processed wings, extends both the store and the returned
list. -/
theorem analyzeLoop_invariant (oracle : Wing → Wing → Option String)
    (newWing : Wing) :
    ∀ (ws : List Wing) (st : Store) (acc : List Connection),
      ∃ tail,
        (analyzeLoop oracle newWing ws st acc).1.connections = st.connections ++ tail ∧
        (analyzeLoop oracle newWing ws st acc).2 = acc ++ tail ∧
        (analyzeLoop oracle newWing ws st acc).1.wings = st.wings ∧
        ∀ c ∈ tail, c.type = ConnType.semantic ∧ c.wingId1 = newWing.id ∧
          c.wingId2 ∈ ws.map (fun w => w.id)
  | [], st, acc => ⟨[], by simp [analyzeLoop]⟩
  | w :: rest, st, acc => by
    rw [analyzeLoop]
    cases hG : getConnectionBetween st newWing.id w.id with
    | some c0 =>
      obtain ⟨tail, h1, h2, h3, h4⟩ := analyzeLoop_invariant oracle newWing rest st acc
      exact ⟨tail, h1, h2, h3, fun c hc => ⟨(h4 c hc).1, (h4 c hc).2.1,
        by simpa using Or.inr (h4 c hc).2.2⟩⟩
    | none =>
      by_cases hsc : SCORE_THRESHOLD ≤
          calculateConnectionScore (oracle newWing w) newWing w
      · simp only [hsc, if_true, generateId]
        set c : Connection :=
          { id := st.nextId, wingId1 := newWing.id, wingId2 := w.id,
            score := calculateConnectionScore (oracle newWing w) newWing w,
            type := ConnType.semantic } with hc
        obtain ⟨tail, h1, h2, h3, h4⟩ := analyzeLoop_invariant oracle newWing rest
          (createConnection { st with nextId := st.nextId + 1 } c) (acc ++ [c])
        refine ⟨c :: tail, ?_, ?_, ?_, ?_⟩
        · rw [show (analyzeLoop oracle newWing rest
            (createConnection { st with nextId := st.nextId + 1 } c)
            (acc ++ [c])).1.connections =
              (createConnection { st with nextId := st.nextId + 1 } c).connections
                ++ tail from h1]
          simp [createConnection, generateId]
        · rw [h2]; simp
        · rw [h3]; simp [createConnection]
        · intro c' hc'
          rcases List.mem_cons.mp hc' with hc' | hc'
          · subst hc'; exact ⟨rfl, rfl, by simp⟩
          · exact ⟨(h4 c' hc').1, (h4 c' hc').2.1,
              by simpa using Or.inr (h4 c' hc').2.2⟩
      · simp only [hsc, if_false]
        obtain ⟨tail, h1, h2, h3, h4⟩ := analyzeLoop_invariant oracle newWing rest st acc
        exact ⟨tail, h1, h2, h3, fun c hc => ⟨(h4 c hc).1, (h4 c hc).2.1,
          by simpa using Or.inr (h4 c hc).2.2⟩⟩

/-- The per-wing analysis loop leaves the edge set of an
already-connected pair untouched: its guard only creates an edge for a
pair whose current edge set is empty. -/
theorem analyzeLoop_connected_preserve (oracle : Wing → Wing → Option String)
    (newWing : Wing) :
    ∀ (ws : List Wing) (st : Store) (acc : List Connection) (a b : String),
      pairConns st.connections a b ≠ [] →
      pairConns (analyzeLoop oracle newWing ws st acc).1.connections a b =
        pairConns st.connections a b
  | [], st, acc, a, b, h => by simp [analyzeLoop]
  | w :: rest, st, acc, a, b, h => by
    rw [analyzeLoop]
    cases hG : getConnectionBetween st newWing.id w.id with
    | some c0 => exact analyzeLoop_connected_preserve oracle newWing rest st acc a b h
    | none =>
      by_cases hsc : SCORE_THRESHOLD ≤
          calculateConnectionScore (oracle newWing w) newWing w
      · simp only [hsc, if_true, generateId]
        set c : Connection :=
          { id := st.nextId, wingId1 := newWing.id, wingId2 := w.id,
            score := calculateConnectionScore (oracle newWing w) newWing w,
            type := ConnType.semantic } with hcdef
        have hnt : c.touches a b = false := by
          by_contra hcon
          have htr : c.touches a b = true := by
            cases hcc : c.touches a b with
            | true => rfl
            | false => exact absurd hcc hcon
          have hemp : pairConns st.connections newWing.id w.id = [] :=
            (getConnectionBetween_none_iff st newWing.id w.id).mp hG
          rcases (touches_mk_true_iff st.nextId newWing.id w.id _ _ a b).mp htr with
            ⟨ha, hb⟩ | ⟨ha, hb⟩
          · rw [← ha, ← hb] at h
            exact h hemp
          · rw [← ha, ← hb, pairConns_comm] at h
            exact h hemp
        have hstep : pairConns (createConnection { st with nextId := st.nextId + 1 } c).connections a b =
            pairConns st.connections a b := by
          simp [createConnection, pairConns_append, pairConns, hnt]
        rw [analyzeLoop_connected_preserve oracle newWing rest _ _ a b
          (by rw [hstep]; exact h), hstep]
      · simp only [hsc, if_false]
        exact analyzeLoop_connected_preserve oracle newWing rest st acc a b h

/-- The per-wing analysis loop does not change the edge set of the pair
(analyzed wing, b) when none of the processed wings has id b and the
analyzed wing does not have id b. -/
theorem analyzeLoop_other_preserve (oracle : Wing → Wing → Option String)
    (newWing : Wing) :
    ∀ (ws : List Wing) (st : Store) (acc : List Connection) (b : String),
      (∀ w' ∈ ws, w'.id ≠ b) → newWing.id ≠ b →
      pairConns (analyzeLoop oracle newWing ws st acc).1.connections newWing.id b =
        pairConns st.connections newWing.id b
  | [], st, acc, b, hws, hnb => by simp [analyzeLoop]
  | w :: rest, st, acc, b, hws, hnb => by
    rw [analyzeLoop]
    cases hG : getConnectionBetween st newWing.id w.id with
    | some c0 =>
      exact analyzeLoop_other_preserve oracle newWing rest st acc b
        (fun w' hw' => hws w' (List.mem_cons_of_mem w hw')) hnb
    | none =>
      by_cases hsc : SCORE_THRESHOLD ≤
          calculateConnectionScore (oracle newWing w) newWing w
      · simp only [hsc, if_true, generateId]
        set c : Connection :=
          { id := st.nextId, wingId1 := newWing.id, wingId2 := w.id,
            score := calculateConnectionScore (oracle newWing w) newWing w,
            type := ConnType.semantic } with hcdef
        have hnt : c.touches newWing.id b = false := by
          cases hcc : c.touches newWing.id b with
          | false => rfl
          | true =>
            rcases (touches_mk_true_iff st.nextId newWing.id w.id _ _ newWing.id b).mp hcc with
              ⟨_, hb⟩ | ⟨ha, _⟩
            · exact absurd hb (hws w (List.mem_cons_self w rest))
            · exact absurd ha hnb
        have hstep : pairConns (createConnection { st with nextId := st.nextId + 1 } c).connections newWing.id b =
            pairConns st.connections newWing.id b := by
          simp [createConnection, pairConns_append, pairConns, hnt]
        rw [analyzeLoop_other_preserve oracle newWing rest _ _ b
          (fun w' hw' => hws w' (List.mem_cons_of_mem w hw')) hnb, hstep]
      · simp only [hsc, if_false]
        exact analyzeLoop_other_preserve oracle newWing rest st acc b
          (fun w' hw' => hws w' (List.mem_cons_of_mem w hw')) hnb

/-- The threshold behaviour of the per-wing analysis loop for one target
pair with no existing edge: below SCORE_THRESHOLD nothing is created for
the pair; at or above it exactly one semantic edge carrying the pair's
score is created, persisted and returned. -/
theorem analyzeLoop_threshold (oracle : Wing → Wing → Option String)
    (newWing : Wing) :
    ∀ (ws : List Wing) (st : Store) (acc : List Connection) (target : Wing),
      target ∈ ws → (ws.map (fun w => w.id)).Nodup → target.id ≠ newWing.id →
      pairConns st.connections newWing.id target.id = [] →
      ((calculateConnectionScore (oracle newWing target) newWing target <
          SCORE_THRESHOLD →
        pairConns (analyzeLoop oracle newWing ws st acc).1.connections
          newWing.id target.id = []) ∧
       (SCORE_THRESHOLD ≤
          calculateConnectionScore (oracle newWing target) newWing target →
        ∃ c, pairConns (analyzeLoop oracle newWing ws st acc).1.connections
            newWing.id target.id = [c] ∧
          c.type = ConnType.semantic ∧
          c.score = calculateConnectionScore (oracle newWing target) newWing target ∧
          c.wingId1 = newWing.id ∧ c.wingId2 = target.id ∧
          c ∈ (analyzeLoop oracle newWing ws st acc).2))
  | [], st, acc, target, hmem, _, _, _ => absurd hmem (List.not_mem_nil target)
  | w :: rest, st, acc, target, hmem, hnodup, hne, hpair => by
    have hnd : (∀ x ∈ rest, ¬ x.id = w.id) ∧ (rest.map (fun w => w.id)).Nodup := by
      simpa using hnodup
    have hrest_nodup : (rest.map (fun w => w.id)).Nodup := hnd.2
    rcases List.mem_cons.mp hmem with heq | hmem'
    · subst heq
      have hG : getConnectionBetween st newWing.id target.id = none :=
        (getConnectionBetween_none_iff st newWing.id target.id).mpr hpair
      have hrest_ne : ∀ w' ∈ rest, w'.id ≠ target.id :=
        fun w' hw' => hnd.1 w' hw'
      rw [analyzeLoop]
      simp only [hG]
      by_cases hsc : SCORE_THRESHOLD ≤
          calculateConnectionScore (oracle newWing target) newWing target
      · simp only [hsc, if_true, generateId]
        set c : Connection :=
          { id := st.nextId, wingId1 := newWing.id, wingId2 := target.id,
            score := calculateConnectionScore (oracle newWing target) newWing target,
            type := ConnType.semantic } with hcdef
        have htc : c.touches newWing.id target.id = true := by
          simp [Connection.touches]
        have hstep : pairConns (createConnection { st with nextId := st.nextId + 1 } c).connections
            newWing.id target.id = [c] := by
          simp [createConnection, pairConns_append, pairConns, htc, hpair]
          simpa [pairConns] using hpair
        constructor
        · intro hlt
          exact absurd hsc (not_le.mpr hlt)
        · intro _
          obtain ⟨tail, h1, h2, h3, h4⟩ := analyzeLoop_invariant oracle newWing rest
            (createConnection { st with nextId := st.nextId + 1 } c) (acc ++ [c])
          refine ⟨c, ?_, rfl, rfl, rfl, rfl, ?_⟩
          · rw [analyzeLoop_connected_preserve oracle newWing rest _ _ _ _
              (by rw [hstep]; exact List.cons_ne_nil c []), hstep]
          · rw [h2]
            simp
      · simp only [hsc, if_false]
        constructor
        · intro _
          rw [analyzeLoop_other_preserve oracle newWing rest st acc target.id
            hrest_ne (Ne.symm hne)]
          exact hpair
        · intro hge
          exact hge.elim
    · have hwne : w.id ≠ target.id :=
        fun hcon => hnd.1 target hmem' (by rw [hcon])
      rw [analyzeLoop]
      cases hG : getConnectionBetween st newWing.id w.id with
      | some c0 =>
        exact analyzeLoop_threshold oracle newWing rest st acc target hmem'
          hrest_nodup hne hpair
      | none =>
        by_cases hsc : SCORE_THRESHOLD ≤
            calculateConnectionScore (oracle newWing w) newWing w
        · simp only [hsc, if_true, generateId]
          set c : Connection :=
            { id := st.nextId, wingId1 := newWing.id, wingId2 := w.id,
              score := calculateConnectionScore (oracle newWing w) newWing w,
              type := ConnType.semantic } with hcdef
          have hnt : c.touches newWing.id target.id = false := by
            cases hcc : c.touches newWing.id target.id with
            | false => rfl
            | true =>
              rcases (touches_mk_true_iff st.nextId newWing.id w.id _ _
                  newWing.id target.id).mp hcc with ⟨_, hb⟩ | ⟨ha, _⟩
              · exact absurd hb hwne
              · exact absurd ha.symm hne
          have hstep : pairConns (createConnection { st with nextId := st.nextId + 1 } c).connections
              newWing.id target.id = [] := by
            simp [createConnection, pairConns_append, pairConns, hnt]
            simpa [pairConns] using hpair
          exact analyzeLoop_threshold oracle newWing rest _ _ target hmem'
            hrest_nodup hne hstep
        · simp only [hsc, if_false]
          exact analyzeLoop_threshold oracle newWing rest st acc target hmem'
            hrest_nodup hne hpair

/-! ## C1: per-item threshold correctness -/

/-- C1: per-item analysis, for a pair of the analyzed wing and another
wing (distinct id, wing ids unique as Item ids are) with no existing edge:
a combined score below 0.3 creates no edge for the pair, and a score at or
above 0.3 creates and persists exactly one new edge, of kind semantic,
carrying that score, which is also returned. -/
theorem analyzeConnectionsForWing_threshold (oracle : Wing → Wing → Option String)
    (newWing target : Wing) (s : Store)
    (hnodup : (s.wings.map (fun w => w.id)).Nodup)
    (hmem : target ∈ s.wings) (hne : target.id ≠ newWing.id)
    (hnoedge : getConnectionBetween s newWing.id target.id = none) :
    (calculateConnectionScore (oracle newWing target) newWing target <
        SCORE_THRESHOLD →
      pairConns (analyzeConnectionsForWing oracle newWing s).1.connections
        newWing.id target.id = []) ∧
    (SCORE_THRESHOLD ≤
        calculateConnectionScore (oracle newWing target) newWing target →
      ∃ c, pairConns (analyzeConnectionsForWing oracle newWing s).1.connections
          newWing.id target.id = [c] ∧
        c.type = ConnType.semantic ∧
        c.score = calculateConnectionScore (oracle newWing target) newWing target ∧
        c.wingId1 = newWing.id ∧ c.wingId2 = target.id ∧
        c ∈ (analyzeConnectionsForWing oracle newWing s).2) := by
  unfold analyzeConnectionsForWing
  simp only [getAllWings]
  have hmemf : target ∈ s.wings.filter (fun w => !(w.id == newWing.id)) := by
    rw [List.mem_filter]
    exact ⟨hmem, by simpa using hne⟩
  have hnodupf : ((s.wings.filter (fun w => !(w.id == newWing.id))).map
      (fun w => w.id)).Nodup :=
    List.Nodup.sublist (List.Sublist.map (fun w => w.id)
      (List.filter_sublist s.wings)) hnodup
  have hnonempty : ¬ ((s.wings.filter (fun w => !(w.id == newWing.id))).isEmpty = true) := by
    rw [List.isEmpty_iff]
    intro hcon
    rw [hcon] at hmemf
    exact List.not_mem_nil target hmemf
  rw [if_neg hnonempty]
  exact analyzeLoop_threshold oracle newWing
    (s.wings.filter (fun w => !(w.id == newWing.id))) s [] target hmemf hnodupf
    hne ((getConnectionBetween_none_iff s newWing.id target.id).mp hnoedge)

/-- C1 witness: all hypotheses hold for wE analyzed against the store
holding wF and wG, and the threshold conclusion applies to the pair
(wE, wF). -/
theorem analyzeConnectionsForWing_threshold_witness :
    ((sFG.wings.map (fun w => w.id)).Nodup ∧ wF ∈ sFG.wings ∧
      wF.id ≠ wE.id ∧ getConnectionBetween sFG wE.id wF.id = none) ∧
    ((calculateConnectionScore (oracleNone wE wF) wE wF < SCORE_THRESHOLD →
      pairConns (analyzeConnectionsForWing oracleNone wE sFG).1.connections
        wE.id wF.id = []) ∧
    (SCORE_THRESHOLD ≤ calculateConnectionScore (oracleNone wE wF) wE wF →
      ∃ c, pairConns (analyzeConnectionsForWing oracleNone wE sFG).1.connections
          wE.id wF.id = [c] ∧
        c.type = ConnType.semantic ∧
        c.score = calculateConnectionScore (oracleNone wE wF) wE wF ∧
        c.wingId1 = wE.id ∧ c.wingId2 = wF.id ∧
        c ∈ (analyzeConnectionsForWing oracleNone wE sFG).2)) :=
  ⟨⟨by decide, by decide, by decide, rfl⟩,
    analyzeConnectionsForWing_threshold oracleNone wE wF sFG (by decide)
      (by decide) (by decide) rfl⟩

/-- The batch reply-parsing loop writes nothing to the store (only the id
counter advances) and only appends to the accumulator: a tail of semantic
connections with consecutive fresh ids. -/
theorem batchParseLoop_invariant (wings : List Wing) :
    ∀ (lines : List String) (st : Store) (acc : List Connection),
      (batchParseLoop wings lines st acc).1.connections = st.connections ∧
      (batchParseLoop wings lines st acc).1.wings = st.wings ∧
      ∃ tail, (batchParseLoop wings lines st acc).2 = acc ++ tail ∧
        tail.map (fun c => c.id) = List.range' st.nextId tail.length ∧
        (batchParseLoop wings lines st acc).1.nextId = st.nextId + tail.length ∧
        ∀ c ∈ tail, c.type = ConnType.semantic
  | [], st, acc => ⟨rfl, rfl, [], by simp [batchParseLoop], by simp [List.range'],
      by simp [batchParseLoop], by simp⟩
  | line :: rest, st, acc => by
    rw [batchParseLoop]
    cases hL : parseLine wings line with
    | stop => exact ⟨rfl, rfl, [], by simp, by simp [List.range'], by simp, by simp⟩
    | skip => exact batchParseLoop_invariant wings rest st acc
    | accept w1 w2 q =>
      simp only [generateId]
      set c : Connection :=
        { id := st.nextId, wingId1 := w1.id, wingId2 := w2.id,
          score := min 1 q, type := ConnType.semantic } with hcdef
      obtain ⟨h1, h2, tail, h3, h4, h5, h6⟩ := batchParseLoop_invariant wings rest
        { st with nextId := st.nextId + 1 } (acc ++ [c])
      refine ⟨h1, h2, c :: tail, ?_, ?_, ?_, ?_⟩
      · rw [h3]; simp
      · simp only [List.map_cons, List.length_cons, h4]
        simp [List.range']
      · rw [h5]
        show st.nextId + 1 + tail.length = st.nextId + (c :: tail).length
        simp only [List.length_cons]
        omega
      · intro c' hc'
        rcases List.mem_cons.mp hc' with hc' | hc'
        · subst hc'; rfl
        · exact h6 c' hc'

/-- The non-semantic batch loop writes nothing to the store (only the id
counter advances) and only appends to the accumulator: a tail of
collection-kind connections with consecutive fresh ids, each joining one
of the processed pairs, each for a pair with no edge in the store. -/
theorem batchLoop_invariant :
    ∀ (pairs : List (Wing × Wing)) (st : Store) (acc : List Connection),
      (batchLoop pairs st acc).1.connections = st.connections ∧
      (batchLoop pairs st acc).1.wings = st.wings ∧
      ∃ tail, (batchLoop pairs st acc).2 = acc ++ tail ∧
        tail.map (fun c => c.id) = List.range' st.nextId tail.length ∧
        (batchLoop pairs st acc).1.nextId = st.nextId + tail.length ∧
        ∀ c ∈ tail, c.type = ConnType.collection ∧
          pairConns st.connections c.wingId1 c.wingId2 = [] ∧
          ∃ p ∈ pairs, c.wingId1 = p.1.id ∧ c.wingId2 = p.2.id
  | [], st, acc => ⟨rfl, rfl, [], by simp [batchLoop], by simp [List.range'],
      by simp [batchLoop], by simp⟩
  | (wing1, wing2) :: rest, st, acc => by
    rw [batchLoop]
    cases hG : getConnectionBetween st wing1.id wing2.id with
    | some c0 =>
      obtain ⟨h1, h2, tail, h3, h4, h5, h6⟩ := batchLoop_invariant rest st acc
      exact ⟨h1, h2, tail, h3, h4, h5, fun c hc =>
        ⟨(h6 c hc).1, (h6 c hc).2.1,
         let ⟨p, hp, hp2⟩ := (h6 c hc).2.2
         ⟨p, List.mem_cons_of_mem _ hp, hp2⟩⟩⟩
    | none =>
      cases hF : acc.find? (fun c =>
          (c.wingId1 == wing1.id && c.wingId2 == wing2.id) ||
          (c.wingId1 == wing2.id && c.wingId2 == wing1.id)) with
      | some c0 =>
        obtain ⟨h1, h2, tail, h3, h4, h5, h6⟩ := batchLoop_invariant rest st acc
        exact ⟨h1, h2, tail, h3, h4, h5, fun c hc =>
          ⟨(h6 c hc).1, (h6 c hc).2.1,
           let ⟨p, hp, hp2⟩ := (h6 c hc).2.2
           ⟨p, List.mem_cons_of_mem _ hp, hp2⟩⟩⟩
      | none =>
        by_cases hsc : SCORE_THRESHOLD ≤
            calculateCollectionProximity wing1 wing2 * 0.6 +
              calculateDomainSimilarity wing1 wing2 * 0.4
        · simp only [hsc, if_true, generateId]
          set c : Connection :=
            { id := st.nextId, wingId1 := wing1.id, wingId2 := wing2.id,
              score := calculateCollectionProximity wing1 wing2 * 0.6 +
                calculateDomainSimilarity wing1 wing2 * 0.4,
              type := ConnType.collection } with hcdef
          obtain ⟨h1, h2, tail, h3, h4, h5, h6⟩ := batchLoop_invariant rest
            { st with nextId := st.nextId + 1 } (acc ++ [c])
          refine ⟨h1, h2, c :: tail, ?_, ?_, ?_, ?_⟩
          · rw [h3]; simp
          · simp only [List.map_cons, List.length_cons, h4]
            simp [List.range']
          · rw [h5]
            show st.nextId + 1 + tail.length = st.nextId + (c :: tail).length
            simp only [List.length_cons]
            omega
          · intro c' hc'
            rcases List.mem_cons.mp hc' with hc' | hc'
            · subst hc'
              refine ⟨rfl, (getConnectionBetween_none_iff st wing1.id wing2.id).mp hG,
                (wing1, wing2), List.mem_cons_self _ _, rfl, rfl⟩
            · exact ⟨(h6 c' hc').1, (h6 c' hc').2.1,
                let ⟨p, hp, hp2⟩ := (h6 c' hc').2.2
                ⟨p, List.mem_cons_of_mem _ hp, hp2⟩⟩
        · simp only [hsc, if_false]
          obtain ⟨h1, h2, tail, h3, h4, h5, h6⟩ := batchLoop_invariant rest st acc
          exact ⟨h1, h2, tail, h3, h4, h5, fun c hc =>
            ⟨(h6 c hc).1, (h6 c hc).2.1,
             let ⟨p, hp, hp2⟩ := (h6 c hc).2.2
             ⟨p, List.mem_cons_of_mem _ hp, hp2⟩⟩⟩

/-- Both members of an i < j pair of `allPairs` belong to the list, and
their ids differ when the list's ids are distinct. -/
theorem allPairs_mem :
    ∀ (wings : List Wing) (p : Wing × Wing), p ∈ allPairs wings →
      p.1 ∈ wings ∧ p.2 ∈ wings ∧
        ((wings.map (fun w => w.id)).Nodup → p.1.id ≠ p.2.id)
  | [], p, hp => absurd hp (List.not_mem_nil p)
  | w :: rest, p, hp => by
    rw [allPairs, List.mem_append] at hp
    rcases hp with hp | hp
    · obtain ⟨w2, hw2, hpe⟩ := List.mem_map.mp hp
      subst hpe
      refine ⟨List.mem_cons_self _ _, List.mem_cons_of_mem _ hw2, fun hnd => ?_⟩
      have hnd' : (∀ x ∈ rest, ¬ x.id = w.id) ∧
          (rest.map (fun w => w.id)).Nodup := by simpa using hnd
      exact fun hcon => hnd'.1 w2 hw2 hcon.symm
    · obtain ⟨h1, h2, h3⟩ := allPairs_mem rest p hp
      refine ⟨List.mem_cons_of_mem _ h1, List.mem_cons_of_mem _ h2, fun hnd => ?_⟩
      have hnd' : (∀ x ∈ rest, ¬ x.id = w.id) ∧
          (rest.map (fun w => w.id)).Nodup := by simpa using hnd
      exact h3 hnd'.2

/-- Batch-upserting connections whose ids are fresh and mutually distinct
appends them. -/
theorem batchUpsert_fresh :
    ∀ (cs : List Connection) (s : Store),
      (∀ c ∈ cs, ∀ c0 ∈ s.connections, c0.id ≠ c.id) →
      (cs.map (fun c => c.id)).Nodup →
      (batchUpsertConnections s cs).connections = s.connections ++ cs ∧
      (batchUpsertConnections s cs).wings = s.wings ∧
      (batchUpsertConnections s cs).nextId = s.nextId
  | [], s, _, _ => ⟨by simp [batchUpsertConnections], rfl, rfl⟩
  | c :: cs, s, hfresh, hnodup => by
    have hany : (s.connections.any (fun c0 => c0.id == c.id)) = false := by
      rw [List.any_eq_false]
      intro c0 hc0
      simpa using hfresh c (List.mem_cons_self c cs) c0 hc0
    have hstep : upsertConnection s c = { s with connections := s.connections ++ [c] } := by
      unfold upsertConnection
      rw [hany]
      simp
    have hnd' : (∀ x ∈ cs, ¬ x.id = c.id) ∧
        (cs.map (fun c => c.id)).Nodup := by simpa using hnodup
    have hbatch : batchUpsertConnections s (c :: cs) =
        batchUpsertConnections { s with connections := s.connections ++ [c] } cs := by
      unfold batchUpsertConnections
      rw [List.foldl_cons, hstep]
    rw [hbatch]
    obtain ⟨h1, h2, h3⟩ := batchUpsert_fresh cs
      { s with connections := s.connections ++ [c] }
      (by
        intro c' hc' c0 hc0
        rcases List.mem_append.mp hc0 with hc0 | hc0
        · exact hfresh c' (List.mem_cons_of_mem c hc') c0 hc0
        · rcases List.mem_cons.mp hc0 with hc0 | hc0
          · subst hc0
            exact fun hcon => hnd'.1 c' hc' hcon.symm
          · exact absurd hc0 (List.not_mem_nil c0))
      hnd'.2
    refine ⟨?_, h2, h3⟩
    rw [h1]
    simp

/-- The batched semantic step writes nothing to the store and produces
semantic connections with consecutive fresh ids. -/
theorem batchStage1_invariant (api : Option String) (wings : List Wing)
    (s : Store) :
    (batchStage1 api wings s).1.connections = s.connections ∧
    (batchStage1 api wings s).1.wings = s.wings ∧
    (batchStage1 api wings s).2.map (fun c => c.id) =
      List.range' s.nextId (batchStage1 api wings s).2.length ∧
    (batchStage1 api wings s).1.nextId =
      s.nextId + (batchStage1 api wings s).2.length ∧
    ∀ c ∈ (batchStage1 api wings s).2, c.type = ConnType.semantic := by
  unfold batchStage1
  by_cases h2 : 2 ≤ (wings.filter hasSummaryJs).length
  · rw [if_pos h2]
    unfold batchSemanticAnalysis
    by_cases hlt : (wings.filter hasSummaryJs).length < 2
    · exact absurd h2 (not_le.mpr hlt)
    · rw [if_neg hlt]
      cases api with
      | none => exact ⟨rfl, rfl, by simp [List.range'], by simp, by simp⟩
      | some text =>
        obtain ⟨h1, h2w, tail, h3, h4, h5, h6⟩ :=
          batchParseLoop_invariant (wings.filter hasSummaryJs)
            (splitS '\n' (trimS text)) s []
        rw [List.nil_append] at h3
        exact ⟨h1, h2w, by rw [h3, h4], by rw [h3, h5], by rw [h3]; exact h6⟩
  · rw [if_neg h2]
    exact ⟨rfl, rfl, by simp [List.range'], by simp, by simp⟩

/-- A full batch run only appends to the store's connections when all
existing connection ids are below the id counter. -/
theorem batchAnalyzeConnections_appends (api : Option String)
    (wings : List Wing) (s : Store)
    (hfresh : ∀ c ∈ s.connections, c.id < s.nextId) :
    ∃ added, (batchAnalyzeConnections api wings s).1.connections =
      s.connections ++ added := by
  unfold batchAnalyzeConnections
  by_cases hlt : wings.length < 2
  · rw [if_pos hlt]
    exact ⟨[], by simp⟩
  · rw [if_neg hlt]
    obtain ⟨hs1, _, hs3, hs4, _⟩ := batchStage1_invariant api wings s
    obtain ⟨hb1, _, tail, hb3, hb4, _, _⟩ :=
      batchLoop_invariant (allPairs wings) (batchStage1 api wings s).1
        (batchStage1 api wings s).2
    by_cases hemp : (batchLoop (allPairs wings) (batchStage1 api wings s).1
        (batchStage1 api wings s).2).2.isEmpty
    · simp only [hemp, if_true]
      exact ⟨[], by rw [hb1, hs1]; simp⟩
    · rw [if_neg hemp]
      set cs := (batchLoop (allPairs wings) (batchStage1 api wings s).1
        (batchStage1 api wings s).2).2 with hcs
      have hids : cs.map (fun c => c.id) =
          List.range' s.nextId (batchStage1 api wings s).2.length ++
            List.range' (s.nextId + (batchStage1 api wings s).2.length) tail.length := by
        rw [hb3, List.map_append, hs3, hb4, hs4]
      have hnodup : (cs.map (fun c => c.id)).Nodup := by
        rw [hids]
        refine List.Nodup.append (List.nodup_range' _ _) (List.nodup_range' _ _) ?_
        intro x hx1 hx2
        rw [List.mem_range'_1] at hx1 hx2
        omega
      have hfr : ∀ c ∈ cs, ∀ c0 ∈ s.connections, c0.id ≠ c.id := by
        intro c hc c0 hc0
        have hcid : c.id ∈ cs.map (fun c => c.id) := List.mem_map_of_mem _ hc
        rw [hids, List.mem_append, List.mem_range'_1, List.mem_range'_1] at hcid
        have := hfresh c0 hc0
        rcases hcid with hcid | hcid <;> omega
      obtain ⟨hu1, _, _⟩ := batchUpsert_fresh cs
        (batchLoop (allPairs wings) (batchStage1 api wings s).1
          (batchStage1 api wings s).2).1 (by rw [hb1, hs1]; exact hfr) hnodup
      exact ⟨cs, by rw [hu1, hb1, hs1]⟩

theorem batchLoop_skip_existing (wing1 wing2 : Wing)
    (rest : List (Wing × Wing)) (st : Store) (acc : List Connection)
    (c0 : Connection) (h : getConnectionBetween st wing1.id wing2.id = some c0) :
    batchLoop ((wing1, wing2) :: rest) st acc = batchLoop rest st acc := by
  conv_lhs => rw [batchLoop]
  simp [h]

theorem batchStage1_small (api : Option String) (wings : List Wing)
    (s : Store) (h : wings.length < 2) : batchStage1 api wings s = (s, []) := by
  unfold batchStage1
  rw [if_neg]
  intro hcon
  exact absurd (lt_of_le_of_lt (le_trans hcon (List.length_filter_le _ wings)) h)
    (by omega)

theorem batchAnalyzeConnections_snd (api : Option String) (wings : List Wing)
    (s : Store) (h : ¬ wings.length < 2) :
    (batchAnalyzeConnections api wings s).2 =
      (batchLoop (allPairs wings) (batchStage1 api wings s).1
        (batchStage1 api wings s).2).2 := by
  unfold batchAnalyzeConnections
  rw [if_neg h]
  by_cases hemp : (batchLoop (allPairs wings) (batchStage1 api wings s).1
      (batchStage1 api wings s).2).2.isEmpty
  · rw [if_pos hemp]
  · rw [if_neg hemp]

/-! ## C5: deduplication in batch analysis -/

/-- C5 counterexample: with wA and wB already joined by an edge (sDup) and
a batched reply accepting the pair, batchAnalyzeConnections persists a
second edge for the same unordered pair: the batched semantic step is not
checked against existing edges. -/
theorem batchAnalyzeConnections_duplicate_counterexample :
    (pairConns (batchAnalyzeConnections (some "0,1,0.9") [wA, wB] sDup).1.connections
      "a" "b").length = 2 := by
  have hfv : floatVal (false, 0, 9, 1, 0) = 9/10 := by norm_num [floatVal]
  have hpf : parseFloat "0.9" = some (9/10) := by
    rw [parseFloat_eval "0.9" (false, 0, 9, 1, 0) (by decide), hfv]
  have hst1 : batchStage1 (some "0,1,0.9") [wA, wB] sDup =
      (⟨[wA, wB], [eSem], 101⟩,
       [{ id := 100, wingId1 := "a", wingId2 := "b",
          score := min 1 ((9:ℚ)/10), type := ConnType.semantic }]) := by
    unfold batchStage1
    rw [if_pos (by decide),
      show ([wA, wB].filter hasSummaryJs) = [wA, wB] from by decide]
    rw [batchSemanticAnalysis_some "0,1,0.9" [wA, wB] sDup (by decide)]
    rw [show trimS "0,1,0.9" = "0,1,0.9" from by decide,
      show splitS '\n' "0,1,0.9" = ["0,1,0.9"] from by decide]
    rw [batchParseLoop_accept [wA, wB] "0,1,0.9" [] sDup [] wA wB ((9:ℚ)/10)
      (parseLine_accepts [wA, wB] "0,1,0.9" "0" "1" "0.9" 0 1 ((9:ℚ)/10) wA wB
        (by decide) (by decide) (by decide) (by decide) hpf (by decide)
        (by decide) (by decide) (by decide)
        (by norm_num [SCORE_THRESHOLD]) (by decide) (by decide))]
    rfl
  unfold batchAnalyzeConnections
  rw [if_neg (by decide)]
  simp only [hst1]
  rw [show allPairs [wA, wB] = [(wA, wB)] from rfl]
  rw [batchLoop_skip_existing wA wB [] ⟨[wA, wB], [eSem], 101⟩
    [{ id := 100, wingId1 := "a", wingId2 := "b",
       score := min 1 ((9:ℚ)/10), type := ConnType.semantic }] eSem rfl]
  rw [show batchLoop []
      (⟨[wA, wB], [eSem], 101⟩ : Store)
      [{ id := 100, wingId1 := "a", wingId2 := "b",
         score := min 1 ((9:ℚ)/10), type := ConnType.semantic }] =
    ((⟨[wA, wB], [eSem], 101⟩ : Store),
     [{ id := 100, wingId1 := "a", wingId2 := "b",
        score := min 1 ((9:ℚ)/10), type := ConnType.semantic }]) from rfl]
  rw [if_neg (by simp)]
  rfl

/-- C5 amended: the non-semantic pass of batch analysis deduplicates
against existing edges (and against the batch results): every edge it
contributes beyond the batched semantic step's output is collection-kind
and joins a pair with no existing edge in the store.  Edges produced by
the batched semantic step are persisted without an existing-edge check
(see the counterexample), so a pair can end up with two edges. -/
theorem batchAnalyzeConnections_dedup_amended (api : Option String)
    (wings : List Wing) (s : Store) :
    ∃ tail, (batchAnalyzeConnections api wings s).2 =
        (batchStage1 api wings s).2 ++ tail ∧
      ∀ c ∈ tail, c.type = ConnType.collection ∧
        pairConns s.connections c.wingId1 c.wingId2 = [] := by
  by_cases hlt : wings.length < 2
  · refine ⟨[], ?_, by simp⟩
    rw [batchStage1_small api wings s hlt]
    unfold batchAnalyzeConnections
    rw [if_pos hlt]
    simp
  · obtain ⟨hs1, _, _, _, _⟩ := batchStage1_invariant api wings s
    obtain ⟨_, _, tail, hb3, _, _, h6⟩ :=
      batchLoop_invariant (allPairs wings) (batchStage1 api wings s).1
        (batchStage1 api wings s).2
    refine ⟨tail, ?_, ?_⟩
    · rw [batchAnalyzeConnections_snd api wings s hlt, hb3]
    · intro c hc
      refine ⟨(h6 c hc).1, ?_⟩
      have := (h6 c hc).2.1
      rwa [hs1] at this

/-- C5 amended witness: a concrete batch run decomposes into the batched
semantic output plus deduplicated collection edges. -/
theorem batchAnalyzeConnections_dedup_amended_witness :
    ∃ tail, (batchAnalyzeConnections none [wA, wB] sAB).2 =
        (batchStage1 none [wA, wB] sAB).2 ++ tail ∧
      ∀ c ∈ tail, c.type = ConnType.collection ∧
        pairConns sAB.connections c.wingId1 c.wingId2 = [] :=
  batchAnalyzeConnections_dedup_amended none [wA, wB] sAB

/-! ## C6: manual edges under reanalysis -/

/-- C6 counterexample: with wA and wB joined by a manual edge (sMan), a
batch run whose batched reply accepts the pair leaves the manual edge
intact but persists a second, semantic edge for the same pair — batch
analysis does add a second edge for a manually linked pair. -/
theorem batchAnalyzeConnections_manual_counterexample :
    (batchAnalyzeConnections (some "0,1,0.9") [wA, wB] sMan).1.connections.map
      (fun c => (c.wingId1, c.wingId2, c.type)) =
    [("a", "b", ConnType.manual), ("a", "b", ConnType.semantic)] := by
  have hfv : floatVal (false, 0, 9, 1, 0) = 9/10 := by norm_num [floatVal]
  have hpf : parseFloat "0.9" = some (9/10) := by
    rw [parseFloat_eval "0.9" (false, 0, 9, 1, 0) (by decide), hfv]
  have hst1 : batchStage1 (some "0,1,0.9") [wA, wB] sMan =
      (⟨[wA, wB], [eMan], 101⟩,
       [{ id := 100, wingId1 := "a", wingId2 := "b",
          score := min 1 ((9:ℚ)/10), type := ConnType.semantic }]) := by
    unfold batchStage1
    rw [if_pos (by decide),
      show ([wA, wB].filter hasSummaryJs) = [wA, wB] from by decide]
    rw [batchSemanticAnalysis_some "0,1,0.9" [wA, wB] sMan (by decide)]
    rw [show trimS "0,1,0.9" = "0,1,0.9" from by decide,
      show splitS '\n' "0,1,0.9" = ["0,1,0.9"] from by decide]
    rw [batchParseLoop_accept [wA, wB] "0,1,0.9" [] sMan [] wA wB ((9:ℚ)/10)
      (parseLine_accepts [wA, wB] "0,1,0.9" "0" "1" "0.9" 0 1 ((9:ℚ)/10) wA wB
        (by decide) (by decide) (by decide) (by decide) hpf (by decide)
        (by decide) (by decide) (by decide)
        (by norm_num [SCORE_THRESHOLD]) (by decide) (by decide))]
    rfl
  unfold batchAnalyzeConnections
  rw [if_neg (by decide)]
  simp only [hst1]
  rw [show allPairs [wA, wB] = [(wA, wB)] from rfl]
  rw [batchLoop_skip_existing wA wB [] ⟨[wA, wB], [eMan], 101⟩
    [{ id := 100, wingId1 := "a", wingId2 := "b",
       score := min 1 ((9:ℚ)/10), type := ConnType.semantic }] eMan rfl]
  rw [show batchLoop []
      (⟨[wA, wB], [eMan], 101⟩ : Store)
      [{ id := 100, wingId1 := "a", wingId2 := "b",
         score := min 1 ((9:ℚ)/10), type := ConnType.semantic }] =
    ((⟨[wA, wB], [eMan], 101⟩ : Store),
     [{ id := 100, wingId1 := "a", wingId2 := "b",
        score := min 1 ((9:ℚ)/10), type := ConnType.semantic }]) from rfl]
  rw [if_neg (by simp)]
  rfl

/-- C6 amended: an existing manual edge is never modified, downgraded or
removed by per-item analysis or batch analysis, and per-item analysis
never adds an edge for its pair (it skips connected pairs); but batch
analysis can add a second, semantic edge for the pair through the batched
step (see the counterexample); only unlink or the refresh bulk delete
remove the manual edge. -/
theorem manual_edge_amended (oracle : Wing → Wing → Option String)
    (api : Option String) (newWing : Wing) (wings : List Wing) (s : Store)
    (c0 : Connection) (hc0 : c0 ∈ s.connections)
    (hman : c0.type = ConnType.manual)
    (hfresh : ∀ c ∈ s.connections, c.id < s.nextId) :
    (c0 ∈ (analyzeConnectionsForWing oracle newWing s).1.connections ∧
     pairConns (analyzeConnectionsForWing oracle newWing s).1.connections
         c0.wingId1 c0.wingId2 =
       pairConns s.connections c0.wingId1 c0.wingId2) ∧
    c0 ∈ (batchAnalyzeConnections api wings s).1.connections := by
  have hpne : pairConns s.connections c0.wingId1 c0.wingId2 ≠ [] := by
    apply List.ne_nil_of_mem (a := c0)
    unfold pairConns
    rw [List.mem_filter]
    exact ⟨hc0, by simp [Connection.touches]⟩
  constructor
  · unfold analyzeConnectionsForWing
    simp only [getAllWings]
    by_cases hemp : (s.wings.filter (fun w => !(w.id == newWing.id))).isEmpty
    · rw [if_pos hemp]
      exact ⟨hc0, rfl⟩
    · rw [if_neg hemp]
      obtain ⟨tail, h1, _, _, _⟩ := analyzeLoop_invariant oracle newWing
        (s.wings.filter (fun w => !(w.id == newWing.id))) s []
      constructor
      · rw [h1]
        exact List.mem_append_left tail hc0
      · exact analyzeLoop_connected_preserve oracle newWing _ s [] _ _ hpne
  · obtain ⟨added, hadd⟩ := batchAnalyzeConnections_appends api wings s hfresh
    rw [hadd]
    exact List.mem_append_left added hc0

/-- C6 witness: the manual edge of sMan satisfies the hypotheses, and the
amended preservation conclusions hold for it under a per-item run and a
batch run. -/
theorem manual_edge_amended_witness :
    (eMan ∈ sMan.connections ∧ eMan.type = ConnType.manual ∧
      (∀ c ∈ sMan.connections, c.id < sMan.nextId)) ∧
    ((eMan ∈ (analyzeConnectionsForWing oracleNone wA sMan).1.connections ∧
      pairConns (analyzeConnectionsForWing oracleNone wA sMan).1.connections
          eMan.wingId1 eMan.wingId2 =
        pairConns sMan.connections eMan.wingId1 eMan.wingId2) ∧
     eMan ∈ (batchAnalyzeConnections none [wA, wB] sMan).1.connections) := by
  have hfr : ∀ c ∈ sMan.connections, c.id < sMan.nextId := by
    intro c hc
    rcases List.mem_singleton.mp hc with rfl
    decide
  exact ⟨⟨List.mem_singleton.mpr rfl, rfl, hfr⟩,
    manual_edge_amended oracleNone none wA [wA, wB] sMan eMan
      (List.mem_singleton.mpr rfl) rfl hfr⟩

/-! ## C4: self-edges -/

/-- C4 counterexample: createManualConnection has no distinct-endpoint
guard: called with the same id twice on the empty store it creates and
persists a manual self-edge. -/
theorem createManualConnection_self_counterexample :
    (createManualConnection emptyStore "a" "a").2.map
      (fun c => (c.wingId1, c.wingId2, c.type)) =
        some ("a", "a", ConnType.manual) ∧
    (createManualConnection emptyStore "a" "a").1.connections.map
      (fun c => (c.wingId1, c.wingId2)) = [("a", "a")] :=
  ⟨rfl, rfl⟩

/-- C4 amended: per-item analysis never creates a self-edge (the corpus is
filtered by id), and the non-semantic batch pass never does when the input
wings have distinct ids; but the batched semantic step accepts an `i,i`
reply line, creating a semantic self-edge, and manual linking with equal
ids creates a manual self-edge (see the counterexample). -/
theorem no_self_edges_amended :
    (∀ (oracle : Wing → Wing → Option String) (newWing : Wing) (s : Store),
      ∀ c ∈ (analyzeConnectionsForWing oracle newWing s).2,
        c.wingId1 ≠ c.wingId2) ∧
    (∀ (api : Option String) (wings : List Wing) (s : Store),
      (wings.map (fun w => w.id)).Nodup →
      ∃ tail, (batchAnalyzeConnections api wings s).2 =
          (batchStage1 api wings s).2 ++ tail ∧
        ∀ c ∈ tail, c.wingId1 ≠ c.wingId2) ∧
    ((batchSemanticAnalysis (some "0,0,0.9") [wA, wB] sAB).2.map
      (fun c => (c.wingId1, c.wingId2, c.type)) =
        [("a", "a", ConnType.semantic)]) := by
  refine ⟨?_, ?_, ?_⟩
  · intro oracle newWing s c hc
    unfold analyzeConnectionsForWing at hc
    simp only [getAllWings] at hc
    by_cases hemp : (s.wings.filter (fun w => !(w.id == newWing.id))).isEmpty
    · rw [if_pos hemp] at hc
      exact absurd hc (List.not_mem_nil c)
    · rw [if_neg hemp] at hc
      obtain ⟨tail, _, h2, _, h4⟩ := analyzeLoop_invariant oracle newWing
        (s.wings.filter (fun w => !(w.id == newWing.id))) s []
      rw [h2, List.nil_append] at hc
      obtain ⟨_, hw1, hw2⟩ := h4 c hc
      obtain ⟨w, hw, hwid⟩ := List.mem_map.mp hw2
      have hpred := (List.mem_filter.mp hw).2
      rw [hw1, ← hwid]
      intro hcon
      rw [← hcon] at hpred
      simp at hpred
  · intro api wings s hnodup
    by_cases hlt : wings.length < 2
    · refine ⟨[], ?_, by simp⟩
      rw [batchStage1_small api wings s hlt]
      unfold batchAnalyzeConnections
      rw [if_pos hlt]
      simp
    · obtain ⟨_, _, tail, hb3, _, _, h6⟩ :=
        batchLoop_invariant (allPairs wings) (batchStage1 api wings s).1
          (batchStage1 api wings s).2
      refine ⟨tail, ?_, ?_⟩
      · rw [batchAnalyzeConnections_snd api wings s hlt, hb3]
      · intro c hc
        obtain ⟨p, hp, hpe1, hpe2⟩ := (h6 c hc).2.2
        rw [hpe1, hpe2]
        exact (allPairs_mem wings p hp).2.2 hnodup
  · have hfv : floatVal (false, 0, 9, 1, 0) = 9/10 := by norm_num [floatVal]
    have hpf : parseFloat "0.9" = some (9/10) := by
      rw [parseFloat_eval "0.9" (false, 0, 9, 1, 0) (by decide), hfv]
    rw [batchSemanticAnalysis_some "0,0,0.9" [wA, wB] sAB (by decide)]
    rw [show trimS "0,0,0.9" = "0,0,0.9" from by decide,
      show splitS '\n' "0,0,0.9" = ["0,0,0.9"] from by decide]
    rw [batchParseLoop_accept [wA, wB] "0,0,0.9" [] sAB [] wA wA ((9:ℚ)/10)
      (parseLine_accepts [wA, wB] "0,0,0.9" "0" "0" "0.9" 0 0 ((9:ℚ)/10) wA wA
        (by decide) (by decide) (by decide) (by decide) hpf (by decide)
        (by decide) (by decide) (by decide)
        (by norm_num [SCORE_THRESHOLD]) (by decide) (by decide))]
    rfl

/-- C4 amended witness: the batch no-self-edge conclusion applied to a
concrete duplicate-free corpus. -/
theorem no_self_edges_amended_witness :
    (([wA, wB].map (fun w => w.id)).Nodup) ∧
    (∃ tail, (batchAnalyzeConnections none [wA, wB] sAB).2 =
        (batchStage1 none [wA, wB] sAB).2 ++ tail ∧
      ∀ c ∈ tail, c.wingId1 ≠ c.wingId2) :=
  ⟨by decide, no_self_edges_amended.2.1 none [wA, wB] sAB (by decide)⟩

/-! ## C8: related-wings query -/

theorem buildRelated_length (s : Store) (conns : List Connection) :
    ∀ ids : List String,
      (buildRelated s conns ids).length =
        (ids.filter (fun id => (getWing s id).isSome)).length
  | [] => rfl
  | id :: rest => by
    rw [buildRelated]
    cases hW : getWing s id with
    | none => simp [hW, buildRelated_length s conns rest]
    | some wing => simp [hW, buildRelated_length s conns rest]

theorem buildRelated_fields (s : Store) (conns : List Connection) :
    ∀ ids : List String,
      (∀ id ∈ ids, ∃ c ∈ conns,
        (c.wingId1 == id || c.wingId2 == id) = true) →
      ∀ e ∈ buildRelated s conns ids, ∃ c ∈ conns,
        e.connectionScore = c.score ∧ e.connectionType = c.type ∧
        e.connectionId = some c.id
  | [], _, e, he => absurd he (List.not_mem_nil e)
  | id :: rest, hids, e, he => by
    rw [buildRelated] at he
    cases hW : getWing s id with
    | none =>
      rw [hW] at he
      exact buildRelated_fields s conns rest
        (fun id' hid' => hids id' (List.mem_cons_of_mem id hid')) e he
    | some wing =>
      rw [hW] at he
      rcases List.mem_cons.mp he with he | he
      · cases hF : conns.find? (fun c => c.wingId1 == id || c.wingId2 == id) with
        | none =>
          obtain ⟨c, hc, hct⟩ := hids id (List.mem_cons_self id rest)
          have := List.find?_eq_none.mp hF c hc
          exact absurd hct this
        | some c =>
          refine ⟨c, List.mem_of_find?_eq_some hF, ?_⟩
          rw [he]
          simp [hF]
      · exact buildRelated_fields s conns rest
          (fun id' hid' => hids id' (List.mem_cons_of_mem id hid')) e he

/-- C8: getRelatedWings output is non-increasing in connectionScore; it is
empty when the wing has no edges; it has one entry per edge whose other
endpoint still resolves to a wing (dangling endpoints are skipped); and
every entry's connectionScore, connectionType and connectionId come from a
connection touching the resolved endpoint. -/
theorem getRelatedWings_spec (s : Store) (wingId : String) :
    List.Pairwise (fun a b : RelatedWing =>
      b.connectionScore ≤ a.connectionScore) (getRelatedWings s wingId) ∧
    (getConnectionsForWing s wingId = [] → getRelatedWings s wingId = []) ∧
    (getRelatedWings s wingId).length =
      ((getConnectionsForWing s wingId).filter (fun conn =>
        (getWing s (if conn.wingId1 == wingId then conn.wingId2
          else conn.wingId1)).isSome)).length ∧
    ∀ e ∈ getRelatedWings s wingId, ∃ c ∈ getConnectionsForWing s wingId,
      e.connectionScore = c.score ∧ e.connectionType = c.type ∧
      e.connectionId = some c.id := by
  unfold getRelatedWings
  by_cases hemp : (getConnectionsForWing s wingId).isEmpty
  · rw [if_pos hemp]
    have hnil : getConnectionsForWing s wingId = [] := List.isEmpty_iff.mp hemp
    refine ⟨List.Pairwise.nil, fun _ => rfl, ?_, ?_⟩
    · rw [hnil]; rfl
    · intro e he
      exact absurd he (List.not_mem_nil e)
  · rw [if_neg hemp]
    have htrans : ∀ a b c : RelatedWing,
        (decide (b.connectionScore ≤ a.connectionScore)) = true →
        (decide (c.connectionScore ≤ b.connectionScore)) = true →
        (decide (c.connectionScore ≤ a.connectionScore)) = true := by
      intro a b c h1 h2
      simp only [decide_eq_true_eq] at *
      exact le_trans h2 h1
    have htotal : ∀ a b : RelatedWing,
        ((decide (b.connectionScore ≤ a.connectionScore)) ||
         (decide (a.connectionScore ≤ b.connectionScore))) = true := by
      intro a b
      simp only [Bool.or_eq_true, decide_eq_true_eq]
      exact le_total b.connectionScore a.connectionScore
    have hids : ∀ id ∈ (getConnectionsForWing s wingId).map (fun conn =>
        if conn.wingId1 == wingId then conn.wingId2 else conn.wingId1),
        ∃ c ∈ getConnectionsForWing s wingId,
          (c.wingId1 == id || c.wingId2 == id) = true := by
      intro id hid
      obtain ⟨c0, hc0, hce⟩ := List.mem_map.mp hid
      refine ⟨c0, hc0, ?_⟩
      by_cases hb : (c0.wingId1 == wingId) = true
      · rw [hb] at hce
        simp only [if_true] at hce
        rw [← hce]
        simp
      · rw [Bool.not_eq_true] at hb
        rw [hb] at hce
        simp only [Bool.false_eq_true, if_false] at hce
        rw [← hce]
        simp
    refine ⟨?_, ?_, ?_, ?_⟩
    · exact List.Pairwise.imp (fun h => of_decide_eq_true h)
        (List.sorted_mergeSort htrans htotal _)
    · intro hcon
      exact absurd (List.isEmpty_iff.mpr hcon) hemp
    · rw [List.length_mergeSort, buildRelated_length, List.filter_map,
        List.length_map]
      rfl
    · intro e he
      have he' : e ∈ buildRelated s (getConnectionsForWing s wingId)
          ((getConnectionsForWing s wingId).map (fun conn =>
            if conn.wingId1 == wingId then conn.wingId2 else conn.wingId1)) :=
        (List.Perm.mem_iff (List.mergeSort_perm _ _)).mp he
      exact buildRelated_fields s _ _ hids e he'

/-- C8 witness: a wing with no edges yields the empty (trivially sorted)
list. -/
theorem getRelatedWings_spec_witness :
    getConnectionsForWing sMan "q" = [] ∧ getRelatedWings sMan "q" = [] ∧
    List.Pairwise (fun a b : RelatedWing =>
      b.connectionScore ≤ a.connectionScore) (getRelatedWings sMan "q") :=
  ⟨rfl, (getRelatedWings_spec sMan "q").2.1 rfl, (getRelatedWings_spec sMan "q").1⟩

/-! ## C10: per-item analysis under store failures -/

/-- Whatever the failure schedule, the per-wing loop only ever appends to
the store's connections: writes made before a failure stay in place. -/
theorem analyzeLoopF_appends (oracle : Wing → Wing → Option String)
    (newWing : Wing) :
    ∀ (ws : List Wing) (st : FSt) (acc : List Connection),
      ∃ added, (analyzeLoopF oracle newWing ws st acc).1.1.connections =
        st.1.connections ++ added
  | [], st, acc => ⟨[], by simp [analyzeLoopF]⟩
  | w :: rest, (s, 0), acc =>
    ⟨[], by simp [analyzeLoopF, fGetConnectionBetween]⟩
  | w :: rest, (s, m + 1), acc => by
    rw [analyzeLoopF]
    rw [show fGetConnectionBetween (s, m + 1) newWing.id w.id =
      ((s, m), Except.ok (getConnectionBetween s newWing.id w.id)) from rfl]
    cases hG : getConnectionBetween s newWing.id w.id with
    | some c0 =>
      dsimp only
      exact analyzeLoopF_appends oracle newWing rest (s, m) acc
    | none =>
      dsimp only
      by_cases hsc : SCORE_THRESHOLD ≤
          calculateConnectionScore (oracle newWing w) newWing w
      · rw [if_pos hsc]
        dsimp only [generateId]
        cases m with
        | zero => exact ⟨[], by simp [fCreateConnection]⟩
        | succ m' =>
          rw [show fCreateConnection ({ s with nextId := s.nextId + 1 }, m' + 1)
              { id := s.nextId, wingId1 := newWing.id, wingId2 := w.id,
                score := calculateConnectionScore (oracle newWing w) newWing w,
                type := ConnType.semantic } =
            ((createConnection { s with nextId := s.nextId + 1 }
              { id := s.nextId, wingId1 := newWing.id, wingId2 := w.id,
                score := calculateConnectionScore (oracle newWing w) newWing w,
                type := ConnType.semantic }, m'), Except.ok ()) from rfl]
          dsimp only
          obtain ⟨added, hadd⟩ := analyzeLoopF_appends oracle newWing rest
            (createConnection { s with nextId := s.nextId + 1 }
              { id := s.nextId, wingId1 := newWing.id, wingId2 := w.id,
                score := calculateConnectionScore (oracle newWing w) newWing w,
                type := ConnType.semantic }, m')
            (acc ++
              [({ id := s.nextId, wingId1 := newWing.id, wingId2 := w.id,
                  score := calculateConnectionScore (oracle newWing w) newWing w,
                  type := ConnType.semantic } : Connection)])
          refine ⟨({ id := s.nextId, wingId1 := newWing.id, wingId2 := w.id,
                      score := calculateConnectionScore (oracle newWing w) newWing w,
                      type := ConnType.semantic } : Connection) :: added, ?_⟩
          rw [hadd]
          simp [createConnection]
      · rw [if_neg hsc]
        exact analyzeLoopF_appends oracle newWing rest (s, m) acc

/-- The body of per-item analysis only appends to the store's connections,
failed or not. -/
theorem analyzeBodyF_appends (oracle : Wing → Wing → Option String)
    (newWing : Wing) (st : FSt) :
    ∃ added, (analyzeBodyF oracle newWing st).1.1.connections =
      st.1.connections ++ added := by
  rcases st with ⟨s, n⟩
  cases n with
  | zero => exact ⟨[], by simp [analyzeBodyF, fGetAllWings]⟩
  | succ m =>
    unfold analyzeBodyF
    rw [show fGetAllWings (s, m + 1) = ((s, m), Except.ok s.wings) from rfl]
    dsimp only
    by_cases hemp : (s.wings.filter (fun w => !(w.id == newWing.id))).isEmpty
    · rw [if_pos hemp]
      exact ⟨[], by simp⟩
    · rw [if_neg hemp]
      exact analyzeLoopF_appends oracle newWing _ (s, m) []

/-- C10: the per-item analysis never rejects: every store failure inside
its body is caught and turned into an empty result list, while the store
keeps every edge persisted before the failure (connections only grow), so
an empty result does not imply that no edge was created. -/
theorem analyzeConnectionsForWingF_error_empty
    (oracle : Wing → Wing → Option String) (newWing : Wing) (st st' : FSt)
    (e : JsErr) (h : analyzeBodyF oracle newWing st = (st', Except.error e)) :
    analyzeConnectionsForWingF oracle newWing st = (st', []) ∧
    ∃ added, st'.1.connections = st.1.connections ++ added := by
  constructor
  · unfold analyzeConnectionsForWingF
    rw [h]
  · have happ := analyzeBodyF_appends oracle newWing st
    rw [h] at happ
    exact happ

/-- C10 witness: a concrete run with a store failure scheduled at the
fourth operation: one edge (wE–wF) is persisted, then the write for wE–wG
fails; the catch returns the empty list while the persisted edge remains
in the store. -/
theorem analyzeConnectionsForWingF_error_empty_witness :
    analyzeBodyF oracleNone wE (sFG, 4) =
      (((⟨[wF, wG], [cEF], 2⟩ : Store), 0), Except.error JsErr.dbError) ∧
    analyzeConnectionsForWingF oracleNone wE (sFG, 4) =
      (((⟨[wF, wG], [cEF], 2⟩ : Store), 0), []) ∧
    (⟨[wF, wG], [cEF], 2⟩ : Store).connections.length = 1 ∧
    (sFG, 4).1.connections.length = 0 := by
  have hcp1 : calculateCollectionProximity wE wF = 1 := by
    unfold calculateCollectionProximity
    norm_num [wE, wF]
  have hcp2 : calculateCollectionProximity wE wG = 1 := by
    unfold calculateCollectionProximity
    norm_num [wE, wG]
  have hdom1 : calculateDomainSimilarity wE wF = 0 := by
    simp [calculateDomainSimilarity, wE, wF,
      show parseHostname "u" = none from by decide]
  have hdom2 : calculateDomainSimilarity wE wG = 0 := by
    simp [calculateDomainSimilarity, wE, wG,
      show parseHostname "u" = none from by decide]
  have hsc1 : calculateConnectionScore (oracleNone wE wF) wE wF = 1 := by
    unfold calculateConnectionScore
    rw [hcp1, hdom1]
    norm_num [show hasSummaryJs wE = false from rfl, jsDoubleFirstTwo, min_def]
  have hsc2 : calculateConnectionScore (oracleNone wE wG) wE wG = 1 := by
    unfold calculateConnectionScore
    rw [hcp2, hdom2]
    norm_num [show hasSummaryJs wE = false from rfl, jsDoubleFirstTwo, min_def]
  have hbody : analyzeBodyF oracleNone wE (sFG, 4) =
      (((⟨[wF, wG], [cEF], 2⟩ : Store), 0), Except.error JsErr.dbError) := by
    calc analyzeBodyF oracleNone wE (sFG, 4)
        = analyzeLoopF oracleNone wE [wF, wG] (sFG, 3) [] := rfl
      _ = analyzeLoopF oracleNone wE [wG] ((⟨[wF, wG], [cEF], 1⟩ : Store), 1)
            [cEF] := by
          conv_lhs => rw [analyzeLoopF]
          rw [show fGetConnectionBetween (sFG, 3) wE.id wF.id =
            ((sFG, 2), Except.ok none) from rfl]
          dsimp only
          rw [hsc1, if_pos (show SCORE_THRESHOLD ≤ (1:ℚ) from by
            norm_num [SCORE_THRESHOLD])]
          rfl
      _ = (((⟨[wF, wG], [cEF], 2⟩ : Store), 0), Except.error JsErr.dbError) := by
          conv_lhs => rw [analyzeLoopF]
          rw [show fGetConnectionBetween ((⟨[wF, wG], [cEF], 1⟩ : Store), 1)
              wE.id wG.id =
            (((⟨[wF, wG], [cEF], 1⟩ : Store), 0), Except.ok none) from rfl]
          dsimp only
          rw [hsc2, if_pos (show SCORE_THRESHOLD ≤ (1:ℚ) from by
            norm_num [SCORE_THRESHOLD])]
          rfl
  exact ⟨hbody,
    (analyzeConnectionsForWingF_error_empty oracleNone wE (sFG, 4) _ _ hbody).1,
    rfl, rfl⟩

end WingApp
